import Mathlib

/-!
Verification development for the insurance CSV ingestion service
(`src/worker.js` and `src/index.js`).

The worker streams a CSV file into a list of string-keyed rows, then for
each row performs six sequential find-or-create steps (Agent, User,
Account, Category, Carrier, Policy) against a MongoDB store, counting
newly created records, and finally posts either the stats object or an
error payload back to the HTTP process.

The shallow embedding below models:
  * a CSV row as a record of `Option String` fields (a missing column is
    `none`; present columns are strings, possibly empty);
  * JavaScript value coercions used by the worker (`truthiness`,
    `parseInt`, `parseFloat`, `new Date`, `||`, `===`);
  * the Mongoose store as lists of records per kind with a shared id
    counter; `findOne` is a first-match scan whose query drops
    `undefined` keys (Mongoose strips undefined values from filters);
    `create` enforces `required` string validation, Date casting
    (an Invalid Date is rejected with a cast error), and the declared
    unique indexes (a duplicate unique key is rejected);
  * the row loop of `processFile` (worker.js lines 95-185) as a fold
    returning the final store and either the stats or the first error;
  * the worker/caller messaging of worker.js lines 187-208 and
    index.js `processCSV` / the `/api/upload` handler.

Numbers are modelled as `Rat` (premium amounts) and `Int`
(`policy_mode`, date timestamps).  `new Date(s)` is modelled by an
ISO `YYYY-MM-DD` parser; any other text is an unparsable date
(JavaScript's Invalid Date), which is what the claims exercise.
-/

deriving instance DecidableEq for Except

/-- JavaScript truthiness of a CSV field: `undefined` and the empty
string are falsy, every other string is truthy.  Models the guard in
expressions such as `row.dob ? new Date(row.dob) : null`. -/
def jsTruthy (o : Option String) : Bool :=
  match o with
  | none => false
  | some s => s ≠ ""

/-- Models `row.agency_id || null` (worker.js line 101): a falsy field
degrades to `null`. -/
def jsOrNullStr (o : Option String) : Option String :=
  if jsTruthy o then o else none

/-- Digits of a string prefix. -/
def leadingDigits (cs : List Char) : List Char :=
  cs.takeWhile fun c => c.isDigit

/-- Numeric value of a digit list. -/
def digitsToNat (ds : List Char) : Nat :=
  ds.foldl (fun a c => a * 10 + (c.toNat - 48)) 0

/-- Models JavaScript `parseInt` applied to a CSV field (worker.js line
171): leading whitespace is skipped, an optional sign is read, then the
longest run of leading decimal digits; `none` is `NaN` (no digits, or
the field is `undefined`).  Radix prefixes are not modelled. -/
def jsParseInt (o : Option String) : Option Int :=
  match o with
  | none => none
  | some s =>
    let cs := s.data.dropWhile fun c => c = ' '
    match cs with
    | '-' :: rest =>
      let ds := leadingDigits rest
      if ds.isEmpty then none else some (-(digitsToNat ds : Int))
    | '+' :: rest =>
      let ds := leadingDigits rest
      if ds.isEmpty then none else some (digitsToNat ds : Int)
    | rest =>
      let ds := leadingDigits rest
      if ds.isEmpty then none else some (digitsToNat ds : Int)

/-- Value of an integer part and a fraction-digit list as a rational. -/
def decimalValue (intPart fracPart : List Char) : Rat :=
  (digitsToNat intPart : Rat) + (digitsToNat fracPart : Rat) / ((10 : Rat) ^ fracPart.length)

/-- Models JavaScript `parseFloat` applied to a CSV field (worker.js
lines 168-169): optional sign, leading decimal digits, optional
fraction; `none` is `NaN` (no digit at all, or the field is
`undefined`).  Exponents and `Infinity` are not modelled. -/
def jsParseFloat (o : Option String) : Option Rat :=
  match o with
  | none => none
  | some s =>
    let cs := s.data.dropWhile fun c => c = ' '
    let core : List Char → Option Rat := fun cs0 =>
      let ip := leadingDigits cs0
      let rest := cs0.drop ip.length
      match rest with
      | '.' :: tail =>
        let fp := leadingDigits tail
        if ip.isEmpty && fp.isEmpty then none else some (decimalValue ip fp)
      | _ => if ip.isEmpty then none else some (decimalValue ip [])
    match cs with
    | '-' :: rest => (core rest).map fun v => -v
    | '+' :: rest => core rest
    | rest => core rest

/-- Models `v || null` where `v` is the result of `parseInt` (worker.js
line 171): `NaN` and `0` are falsy, so both become `null`. -/
def jsNumOrNull (x : Option Int) : Option Int :=
  match x with
  | none => none
  | some n => if n = 0 then none else some n

/-- Models `v || 0` where `v` is the result of `parseFloat` (worker.js
lines 168-169): `NaN`, `0` and `-0` are falsy, so all become `0`. -/
def jsNumOrZero (x : Option Rat) : Rat :=
  match x with
  | none => 0
  | some v => if v = 0 then 0 else v

/-- Result of evaluating `new Date(text)`: a valid timestamp, or
JavaScript's Invalid Date. -/
inductive JsDate where
  | valid (t : Int)
  | invalid
  deriving DecidableEq

/-- Split a character list at each dash. -/
def splitOnDash (cs : List Char) (acc : List Char) : List (List Char) :=
  match cs with
  | [] => [acc.reverse]
  | c :: rest =>
    if c = '-' then acc.reverse :: splitOnDash rest []
    else splitOnDash rest (c :: acc)

/-- All characters are decimal digits. -/
def allDigits (cs : List Char) : Bool :=
  cs.all fun c => c.isDigit

/-- Models `new Date(s)` restricted to the ISO `YYYY-MM-DD` date form
(the only date format the ingestion fixtures use); every other text
yields Invalid Date.  The timestamp encoding is `y*10000 + m*100 + d`,
an injective stand-in for milliseconds since the epoch. -/
def jsNewDate (s : String) : JsDate :=
  match splitOnDash s.data [] with
  | [y, m, d] =>
    if allDigits y && allDigits m && allDigits d &&
       (y.length == 4) && (m.length == 2) && (d.length == 2) &&
       decide (1 ≤ digitsToNat m) && decide (digitsToNat m ≤ 12) &&
       decide (1 ≤ digitsToNat d) && decide (digitsToNat d ≤ 31) then
      JsDate.valid (digitsToNat y * 10000 + digitsToNat m * 100 + digitsToNat d : Int)
    else JsDate.invalid
  | _ => JsDate.invalid

/-- The normalized value of an optional date column: `null`, a valid
date, or Invalid Date. -/
inductive DateVal where
  | null
  | valid (t : Int)
  | invalid
  deriving DecidableEq

/-- Models `row.x ? new Date(row.x) : null` (worker.js lines 115, 166,
167): a falsy field becomes `null`; otherwise the text is handed to the
Date constructor, which may produce Invalid Date. -/
def normDate (o : Option String) : DateVal :=
  if jsTruthy o then
    match o with
    | some s =>
      match jsNewDate s with
      | JsDate.valid t => DateVal.valid t
      | JsDate.invalid => DateVal.invalid
    | none => DateVal.null
  else DateVal.null

/-- Models `parseInt(row.policy_mode) || null` (worker.js line 171). -/
def normPolicyMode (o : Option String) : Option Int :=
  jsNumOrNull (jsParseInt o)

/-- Models `parseFloat(row.x) || 0` (worker.js lines 168-169). -/
def normPremium (o : Option String) : Rat :=
  jsNumOrZero (jsParseFloat o)

/-- Models the strict comparison `row.x === 'true'` (worker.js lines
174, 176): true only for the exact literal `"true"`. -/
def jsIsTrueLiteral (o : Option String) : Bool :=
  o = some "true"

/-- One parsed CSV row: the string-keyed field map produced by
`csv-parser`, restricted to the columns the worker reads.  A missing
column is `none`. -/
structure Row where
  agent : Option String
  agency_id : Option String
  firstname : Option String
  dob : Option String
  address : Option String
  phone : Option String
  state : Option String
  zip : Option String
  email : Option String
  gender : Option String
  userType : Option String
  city : Option String
  account_name : Option String
  account_type : Option String
  category_name : Option String
  company_name : Option String
  policy_number : Option String
  policy_start_date : Option String
  policy_end_date : Option String
  premium_amount : Option String
  premium_amount_written : Option String
  policy_type : Option String
  policy_mode : Option String
  producer : Option String
  csr : Option String
  primary : Option String
  applicantId : Option String
  hasActive : Option String
  deriving DecidableEq

/-- A stored Agent record (AgentSchema, worker.js lines 15-18). -/
structure Agent where
  id : Nat
  name : String
  agency_id : Option String
  deriving DecidableEq

/-- A stored User record (UserSchema, worker.js lines 20-31). -/
structure User where
  id : Nat
  firstname : String
  dob : Option Int
  address : Option String
  phone : Option String
  state : Option String
  zip : Option String
  email : Option String
  gender : Option String
  userType : Option String
  city : Option String
  deriving DecidableEq

/-- A stored Account record (AccountSchema, worker.js lines 33-37). -/
structure Account where
  id : Nat
  name : String
  type : Option String
  user_id : Nat
  deriving DecidableEq

/-- A stored Category record (CategorySchema, worker.js lines 39-41). -/
structure Category where
  id : Nat
  name : String
  deriving DecidableEq

/-- A stored Carrier record (CarrierSchema, worker.js lines 43-45). -/
structure Carrier where
  id : Nat
  name : String
  deriving DecidableEq

/-- A stored Policy record (PolicySchema, worker.js lines 47-65). -/
structure Policy where
  id : Nat
  policy_number : String
  policy_start_date : Option Int
  policy_end_date : Option Int
  premium_amount : Rat
  premium_amount_written : Rat
  policy_type : Option String
  policy_mode : Option Int
  producer : Option String
  csr : Option String
  primary : Bool
  applicant_id : Option String
  hasActive : Bool
  user_id : Nat
  account_id : Nat
  category_id : Nat
  carrier_id : Nat
  agent_id : Nat
  deriving DecidableEq

/-- The MongoDB store: one collection per entity kind plus the id
counter that stands in for ObjectId generation. -/
structure Store where
  nextId : Nat
  agents : List Agent
  users : List User
  accounts : List Account
  categories : List Category
  carriers : List Carrier
  policies : List Policy
  deriving DecidableEq

/-- The empty database. -/
def emptyStore : Store :=
  { nextId := 0, agents := [], users := [], accounts := [],
    categories := [], carriers := [], policies := [] }

/-- The six per-kind creation counters (worker.js lines 80-87). -/
structure Stats where
  agents : Nat
  users : Nat
  accounts : Nat
  categories : Nat
  carriers : Nat
  policies : Nat
  deriving DecidableEq

/-- The all-zero stats object. -/
def Stats.zero : Stats := ⟨0, 0, 0, 0, 0, 0⟩

/-- Pointwise sum of stats. -/
def Stats.add (a b : Stats) : Stats :=
  ⟨a.agents + b.agents, a.users + b.users, a.accounts + b.accounts,
   a.categories + b.categories, a.carriers + b.carriers, a.policies + b.policies⟩

/-- A `findOne` filter entry on a required (always-present) string
field: Mongoose strips `undefined` values from query filters, so a
missing row field matches every record. -/
def qEqStr (q : Option String) (v : String) : Bool :=
  match q with
  | none => true
  | some x => x = v

/-- A `findOne` filter entry on an optional string field: a missing row
field matches every record; a present one matches records storing
exactly that string. -/
def qEqOptStr (q : Option String) (v : Option String) : Bool :=
  match q with
  | none => true
  | some x => v = some x

/-- Models `Agent.findOne({ name: row.agent })` (worker.js line 97). -/
def findAgent (s : Store) (name : Option String) : Option Agent :=
  s.agents.find? fun a => qEqStr name a.name

/-- Models `User.findOne({ firstname, email })` (worker.js lines 107-110). -/
def findUser (s : Store) (fn em : Option String) : Option User :=
  s.users.find? fun u => qEqStr fn u.firstname && qEqOptStr em u.email

/-- Models `Account.findOne({ name, user_id })` (worker.js lines 129-132). -/
def findAccount (s : Store) (name : Option String) (uid : Nat) : Option Account :=
  s.accounts.find? fun a => qEqStr name a.name && a.user_id = uid

/-- Models `Category.findOne({ name: row.category_name })` (worker.js line 144). -/
def findCategory (s : Store) (name : Option String) : Option Category :=
  s.categories.find? fun c => qEqStr name c.name

/-- Models `Carrier.findOne({ name: row.company_name })` (worker.js line 153). -/
def findCarrier (s : Store) (name : Option String) : Option Carrier :=
  s.carriers.find? fun c => qEqStr name c.name

/-- Models `Policy.findOne({ policy_number: row.policy_number })`
(worker.js line 162). -/
def findPolicy (s : Store) (pn : Option String) : Option Policy :=
  s.policies.find? fun p => qEqStr pn p.policy_number

/-- Error message of a failed `required` validator. -/
def requiredMsg : String := "ValidationError: Path is required."

/-- Error message of a failed Date cast. -/
def dateCastMsg : String := "CastError: Cast to Date failed"

/-- Error message of a unique-index rejection. -/
def dupKeyMsg : String := "E11000 duplicate key error"

/-- Mongoose `required: true` validation of a String path: rejects a
missing field and the empty string. -/
def requiredStr (o : Option String) : Except String String :=
  match o with
  | none => Except.error requiredMsg
  | some s => if s = "" then Except.error requiredMsg else Except.ok s

/-- Mongoose cast of a normalized date value to the stored Date path:
`null` is stored as no value, a valid date as its timestamp, and an
Invalid Date is rejected with a cast error. -/
def castDate (d : DateVal) : Except String (Option Int) :=
  match d with
  | DateVal.null => Except.ok none
  | DateVal.valid t => Except.ok (some t)
  | DateVal.invalid => Except.error dateCastMsg

/-- Step 1 of the row loop (worker.js lines 96-104): find the Agent by
name or create it.  Returns the resolved agent, the store, and the
increment applied to `stats.agents`. -/
def stepAgent (r : Row) (s : Store) : Except String (Agent × Store × Nat) :=
  match findAgent s r.agent with
  | some a => Except.ok (a, s, 0)
  | none =>
    match requiredStr r.agent with
    | Except.error e => Except.error e
    | Except.ok name =>
      let a : Agent := { id := s.nextId, name := name, agency_id := jsOrNullStr r.agency_id }
      Except.ok (a, { s with nextId := s.nextId + 1, agents := s.agents ++ [a] }, 1)

/-- Step 2 of the row loop (worker.js lines 106-126): find the User by
(firstname, email) or create it with the normalized demographic
fields. -/
def stepUser (r : Row) (s : Store) : Except String (User × Store × Nat) :=
  match findUser s r.firstname r.email with
  | some u => Except.ok (u, s, 0)
  | none =>
    match requiredStr r.firstname with
    | Except.error e => Except.error e
    | Except.ok fn =>
      match castDate (normDate r.dob) with
      | Except.error e => Except.error e
      | Except.ok dob =>
        let u : User :=
          { id := s.nextId, firstname := fn, dob := dob, address := r.address,
            phone := r.phone, state := r.state, zip := r.zip, email := r.email,
            gender := r.gender, userType := r.userType, city := r.city }
        Except.ok (u, { s with nextId := s.nextId + 1, users := s.users ++ [u] }, 1)

/-- Step 3 of the row loop (worker.js lines 128-141): find the Account
by (name, resolved user id) or create it referencing that user. -/
def stepAccount (r : Row) (uid : Nat) (s : Store) : Except String (Account × Store × Nat) :=
  match findAccount s r.account_name uid with
  | some a => Except.ok (a, s, 0)
  | none =>
    match requiredStr r.account_name with
    | Except.error e => Except.error e
    | Except.ok name =>
      let a : Account := { id := s.nextId, name := name, type := r.account_type, user_id := uid }
      Except.ok (a, { s with nextId := s.nextId + 1, accounts := s.accounts ++ [a] }, 1)

/-- Step 4 of the row loop (worker.js lines 143-150): find the Category
by name or create it; creation enforces the unique index on `name`. -/
def stepCategory (r : Row) (s : Store) : Except String (Category × Store × Nat) :=
  match findCategory s r.category_name with
  | some c => Except.ok (c, s, 0)
  | none =>
    match requiredStr r.category_name with
    | Except.error e => Except.error e
    | Except.ok name =>
      if s.categories.any fun c => c.name = name then Except.error dupKeyMsg
      else
        let c : Category := { id := s.nextId, name := name }
        Except.ok (c, { s with nextId := s.nextId + 1, categories := s.categories ++ [c] }, 1)

/-- Step 5 of the row loop (worker.js lines 152-159): find the Carrier
by name or create it; creation enforces the unique index on `name`. -/
def stepCarrier (r : Row) (s : Store) : Except String (Carrier × Store × Nat) :=
  match findCarrier s r.company_name with
  | some c => Except.ok (c, s, 0)
  | none =>
    match requiredStr r.company_name with
    | Except.error e => Except.error e
    | Except.ok name =>
      if s.carriers.any fun c => c.name = name then Except.error dupKeyMsg
      else
        let c : Carrier := { id := s.nextId, name := name }
        Except.ok (c, { s with nextId := s.nextId + 1, carriers := s.carriers ++ [c] }, 1)

/-- Models `Policy.create` (worker.js lines 164-182): validate and cast the
normalized fields, enforce the unique index on `policy_number`, and
append the new record. -/
def createPolicy (r : Row) (agentId userId accountId categoryId carrierId : Nat)
    (s : Store) : Except String (Policy × Store) :=
  match requiredStr r.policy_number with
  | Except.error e => Except.error e
  | Except.ok pn =>
    match castDate (normDate r.policy_start_date) with
    | Except.error e => Except.error e
    | Except.ok psd =>
      match castDate (normDate r.policy_end_date) with
      | Except.error e => Except.error e
      | Except.ok ped =>
        if s.policies.any fun p => p.policy_number = pn then Except.error dupKeyMsg
        else
          let p : Policy :=
            { id := s.nextId, policy_number := pn,
              policy_start_date := psd, policy_end_date := ped,
              premium_amount := normPremium r.premium_amount,
              premium_amount_written := normPremium r.premium_amount_written,
              policy_type := r.policy_type,
              policy_mode := normPolicyMode r.policy_mode,
              producer := r.producer, csr := r.csr,
              primary := jsIsTrueLiteral r.primary,
              applicant_id := r.applicantId,
              hasActive := jsIsTrueLiteral r.hasActive,
              user_id := userId, account_id := accountId,
              category_id := categoryId, carrier_id := carrierId,
              agent_id := agentId }
          Except.ok (p, { s with nextId := s.nextId + 1, policies := s.policies ++ [p] })

/-- Step 6 of the row loop (worker.js lines 161-184): find the Policy by
policy_number — in which case the row is done with no write — or create
it with the five resolved references. -/
def stepPolicy (r : Row) (agentId userId accountId categoryId carrierId : Nat)
    (s : Store) : Except String (Policy × Store × Nat) :=
  match findPolicy s r.policy_number with
  | some p => Except.ok (p, s, 0)
  | none =>
    match createPolicy r agentId userId accountId categoryId carrierId s with
    | Except.error e => Except.error e
    | Except.ok (p, s1) => Except.ok (p, s1, 1)

/-- Processing of one row (the body of the `for` loop, worker.js lines
95-185): the six steps in their fixed order, threading the store and
collecting the per-kind increments. -/
def processRow (r : Row) (s : Store) : Except String (Store × Stats) :=
  match stepAgent r s with
  | Except.error e => Except.error e
  | Except.ok (agent, s1, da) =>
    match stepUser r s1 with
    | Except.error e => Except.error e
    | Except.ok (user, s2, du) =>
      match stepAccount r user.id s2 with
      | Except.error e => Except.error e
      | Except.ok (account, s3, dacc) =>
        match stepCategory r s3 with
        | Except.error e => Except.error e
        | Except.ok (category, s4, dcat) =>
          match stepCarrier r s4 with
          | Except.error e => Except.error e
          | Except.ok (carrier, s5, dcar) =>
            match stepPolicy r agent.id user.id account.id category.id carrier.id s5 with
            | Except.error e => Except.error e
            | Except.ok (_, s6, dp) =>
              Except.ok (s6, ⟨da, du, dacc, dcat, dcar, dp⟩)

/-- The whole row loop over the buffered rows (worker.js lines 95-185).
Returns the final store — on an error, the store still holds the writes
of the rows already processed, matching the source's lack of rollback —
and either the accumulated stats or the first error. -/
def processRows (rows : List Row) (s : Store) : Store × Except String Stats :=
  match rows with
  | [] => (s, Except.ok Stats.zero)
  | r :: rest =>
    match processRow r s with
    | Except.error e => (s, Except.error e)
    | Except.ok (s1, d) =>
      match processRows rest s1 with
      | (s2, Except.ok st) => (s2, Except.ok (Stats.add d st))
      | (s2, Except.error e) => (s2, Except.error e)

/-- The payload the worker posts to the parent port: the stats object on
success (worker.js line 187) or `{ error: message }` when the promise
rejected (worker.js line 207). -/
inductive WorkerMsg where
  | statsMsg (st : Stats)
  | errorMsg (e : String)
  deriving DecidableEq

/-- The worker's end-to-end behaviour (`processFile` plus the trailing
`.catch`, worker.js lines 76-208): the input is the outcome of the
stream phase — a stream error, or the buffered rows.  A stream error
rejects the promise before any row is processed, and the `.catch`
handler posts the error payload; otherwise the rows are processed and
either the stats or the first row error is posted. -/
def workerMain (input : Except String (List Row)) (s : Store) : Store × WorkerMsg :=
  match input with
  | Except.error e => (s, WorkerMsg.errorMsg e)
  | Except.ok rows =>
    match processRows rows s with
    | (s1, Except.ok st) => (s1, WorkerMsg.statsMsg st)
    | (s1, Except.error e) => (s1, WorkerMsg.errorMsg e)

/-- Outcome of the `processCSV` promise in index.js lines 93-107. -/
inductive PromiseOutcome where
  | resolved (m : WorkerMsg)
  | rejected (e : String)
  deriving DecidableEq

/-- Models how `processCSV` resolves with whatever message the worker posts
(index.js line 99): both a stats payload and an `{ error }` payload
arrive through the same `message` event and resolve the promise. -/
def processCSVOutcome (m : WorkerMsg) : PromiseOutcome :=
  PromiseOutcome.resolved m

/-- Body of the `/api/upload` HTTP response. -/
inductive UploadBody where
  | success (stats : WorkerMsg)
  | failure (e : String)
  deriving DecidableEq

/-- The `/api/upload` handler after the worker finishes (index.js lines
117-129): a resolved promise yields HTTP 200 with the worker's payload
in the `stats` field; a rejected promise yields HTTP 500. -/
def uploadResponse (o : PromiseOutcome) : Nat × UploadBody :=
  match o with
  | PromiseOutcome.resolved m => (200, UploadBody.success m)
  | PromiseOutcome.rejected e => (500, UploadBody.failure e)

/-! ### Spec-side characterizations and concrete fixtures -/

/-- Spec-side date normalization, following the amended claim: `null`
for an absent or empty field, the parsed date for parseable text, a
cast rejection for non-empty unparsable text. -/
def specDateStored (o : Option String) : Except String (Option Int) :=
  match o with
  | none => Except.ok none
  | some s =>
    if s = "" then Except.ok none
    else
      match jsNewDate s with
      | JsDate.valid t => Except.ok (some t)
      | JsDate.invalid => Except.error dateCastMsg

/-- Spec-side `policy_mode`, following the amended claim: the parsed
integer when it is nonzero, `null` when the field is missing,
non-numeric, or parses to `0`. -/
def specPolicyMode (o : Option String) : Option Int :=
  match jsParseInt o with
  | none => none
  | some n => if n = 0 then none else some n

/-- Spec-side premium value: the parsed decimal number, `0` when the
field is missing or non-numeric. -/
def specDecimal (o : Option String) : Rat :=
  match jsParseFloat o with
  | some v => v
  | none => 0

/-- The Policy step of worker.js lines 162-184 with the two store
snapshots made explicit: the `findOne` runs against `sFind` and the
`create` against `sCreate`.  `stepPolicy r ... s` is this function at
`sFind = sCreate = s`; a concurrent writer committing between the two
operations is the case `sFind ≠ sCreate`. -/
def stepPolicyRace (r : Row) (agentId userId accountId categoryId carrierId : Nat)
    (sFind sCreate : Store) : Except String (Policy × Store × Nat) :=
  match findPolicy sFind r.policy_number with
  | some p => Except.ok (p, sCreate, 0)
  | none =>
    match createPolicy r agentId userId accountId categoryId carrierId sCreate with
    | Except.error e => Except.error e
    | Except.ok (p, s1) => Except.ok (p, s1, 1)

/-- A well-formed CSV row used as concrete witness input.  Its premium
fields are left absent so its stored premiums are the literal `0`. -/
def sampleRow : Row :=
  { agent := some "Alice", agency_id := some "AG1", firstname := some "Bob",
    dob := some "1990-05-01", address := some "1 Main St", phone := some "555",
    state := some "CA", zip := some "90001", email := some "bob@example.com",
    gender := some "m", userType := some "client", city := some "LA",
    account_name := some "BobHousehold", account_type := some "personal",
    category_name := some "Auto", company_name := some "Acme",
    policy_number := some "PN1", policy_start_date := some "2020-01-01",
    policy_end_date := some "2021-01-01", premium_amount := none,
    premium_amount_written := none, policy_type := some "auto",
    policy_mode := some "12", producer := some "prod", csr := some "csr",
    primary := some "true", applicantId := some "A1", hasActive := some "false" }

/-- A second row with the same policy_number as `sampleRow` but a
different person. -/
def dupRow : Row :=
  { sampleRow with firstname := some "Dana", email := some "dana@example.com",
                   account_name := some "DanaHousehold" }

/-- Variant of `sampleRow` with an unparsable date of birth. -/
def badDobRow : Row := { sampleRow with dob := some "not-a-date" }

/-- Variant of `sampleRow` with the numeric text `"0"` as policy_mode. -/
def zeroModeRow : Row := { sampleRow with policy_mode := some "0" }

/-- Variant of `sampleRow` with the non-numeric text `"abc"` as policy_mode. -/
def abcModeRow : Row := { sampleRow with policy_mode := some "abc" }

/-- Variant of `sampleRow` with an empty premium_amount. -/
def emptyPremiumRow : Row := { sampleRow with premium_amount := some "" }

/-- Variant of `sampleRow` with a wrong-case boolean text. -/
def upperTrueRow : Row :=
  { sampleRow with primary := some "TRUE", hasActive := some "true" }

/-- The store holding exactly the policy another worker committed from
`sampleRow` — the state a concurrent writer leaves between this
worker's `findOne` and its `create`. -/
def raceStore : Store :=
  match createPolicy sampleRow 0 1 2 3 4 emptyStore with
  | Except.ok (_, s) => s
  | Except.error _ => emptyStore

/-- Store component of processing one row from the empty database. -/
def runStore (r : Row) : Store :=
  match processRow r emptyStore with
  | Except.ok (s, _) => s
  | Except.error _ => emptyStore

/-- Stats component of processing one row from the empty database. -/
def runStats (r : Row) : Stats :=
  match processRow r emptyStore with
  | Except.ok (_, d) => d
  | Except.error _ => Stats.zero


/-- All six lookups of the row succeed in the store (the Account lookup
using the user the User lookup returns).  This is the state of affairs
after the row has been ingested once. -/
def rowSeen (r : Row) (s : Store) : Bool :=
  (findAgent s r.agent).isSome &&
  (match findUser s r.firstname r.email with
   | some u => (findAccount s r.account_name u.id).isSome
   | none => false) &&
  (findCategory s r.category_name).isSome &&
  (findCarrier s r.company_name).isSome &&
  (findPolicy s r.policy_number).isSome

/-- The row fields needed by the six creates are present and valid: the
required name/number columns are truthy and the three date columns
normalize to something other than Invalid Date.  Under these conditions
no validator or cast in the row's path can reject. -/
def rowOk (r : Row) : Bool :=
  jsTruthy r.agent && jsTruthy r.firstname && (normDate r.dob != DateVal.invalid) &&
  jsTruthy r.account_name && jsTruthy r.category_name && jsTruthy r.company_name &&
  jsTruthy r.policy_number && (normDate r.policy_start_date != DateVal.invalid) &&
  (normDate r.policy_end_date != DateVal.invalid)

/-- Number of stored policies carrying the given policy number. -/
def pcount (s : Store) (v : String) : Nat :=
  (s.policies.filter fun p => p.policy_number = v).length


/-! ### Basic lemmas about the store and the find-or-create steps -/

/-- The target store contains every collection of the source store as a
prefix: the ingestion pipeline only appends records. -/
structure StoreExtends (s t : Store) : Prop where
  agents : ∃ l, t.agents = s.agents ++ l
  users : ∃ l, t.users = s.users ++ l
  accounts : ∃ l, t.accounts = s.accounts ++ l
  categories : ∃ l, t.categories = s.categories ++ l
  carriers : ∃ l, t.carriers = s.carriers ++ l
  policies : ∃ l, t.policies = s.policies ++ l

theorem storeExtends_refl (s : Store) : StoreExtends s s :=
  ⟨⟨[], by simp⟩, ⟨[], by simp⟩, ⟨[], by simp⟩, ⟨[], by simp⟩, ⟨[], by simp⟩, ⟨[], by simp⟩⟩

theorem storeExtends_trans {s t u : Store} (h1 : StoreExtends s t)
    (h2 : StoreExtends t u) : StoreExtends s u := by
  obtain ⟨⟨a1, ha1⟩, ⟨u1, hu1⟩, ⟨b1, hb1⟩, ⟨c1, hc1⟩, ⟨d1, hd1⟩, ⟨e1, he1⟩⟩ := h1
  obtain ⟨⟨a2, ha2⟩, ⟨u2, hu2⟩, ⟨b2, hb2⟩, ⟨c2, hc2⟩, ⟨d2, hd2⟩, ⟨e2, he2⟩⟩ := h2
  exact ⟨⟨a1 ++ a2, by simp [ha2, ha1]⟩, ⟨u1 ++ u2, by simp [hu2, hu1]⟩,
         ⟨b1 ++ b2, by simp [hb2, hb1]⟩, ⟨c1 ++ c2, by simp [hc2, hc1]⟩,
         ⟨d1 ++ d2, by simp [hd2, hd1]⟩, ⟨e1 ++ e2, by simp [he2, he1]⟩⟩

theorem find?_append_some {α : Type} {p : α → Bool} {l l' : List α} {a : α}
    (h : l.find? p = some a) : (l ++ l').find? p = some a := by
  rw [List.find?_append, h]; rfl

theorem requiredStr_ok {o : Option String} {v : String}
    (h : requiredStr o = Except.ok v) : o = some v ∧ v ≠ "" := by
  unfold requiredStr at h
  cases o with
  | none => simp at h
  | some s =>
    by_cases hs : s = "" <;> simp [hs] at h
    exact ⟨by rw [h], by rw [← h]; exact hs⟩

theorem qEqOptStr_self (o : Option String) : qEqOptStr o o = true := by
  cases o <;> simp [qEqOptStr]
theorem stepAgent_ok {r : Row} {s : Store} {a : Agent} {s1 : Store} {n : Nat}
    (h : stepAgent r s = Except.ok (a, s1, n)) :
    findAgent s1 r.agent = some a ∧
    s1.users = s.users ∧ s1.accounts = s.accounts ∧ s1.categories = s.categories ∧
    s1.carriers = s.carriers ∧ s1.policies = s.policies ∧
    (∃ l, s1.agents = s.agents ++ l) ∧ s1.agents.length = s.agents.length + n := by
  unfold stepAgent at h
  cases hf : findAgent s r.agent with
  | some a0 =>
    rw [hf] at h
    simp only [Except.ok.injEq, Prod.mk.injEq] at h
    obtain ⟨rfl, rfl, rfl⟩ := h
    exact ⟨hf, rfl, rfl, rfl, rfl, rfl, ⟨[], by simp⟩, by simp⟩
  | none =>
    rw [hf] at h
    cases hr : requiredStr r.agent with
    | error e => rw [hr] at h; simp at h
    | ok name =>
      rw [hr] at h
      simp only [Except.ok.injEq, Prod.mk.injEq] at h
      obtain ⟨rfl, rfl, rfl⟩ := h
      obtain ⟨ho, hne⟩ := requiredStr_ok hr
      refine ⟨?_, rfl, rfl, rfl, rfl, rfl, ⟨_, rfl⟩, by simp⟩
      unfold findAgent at hf ⊢
      simp only []
      rw [List.find?_append, hf]
      simp [ho, qEqStr]

theorem stepUser_ok {r : Row} {s : Store} {u : User} {s1 : Store} {n : Nat}
    (h : stepUser r s = Except.ok (u, s1, n)) :
    findUser s1 r.firstname r.email = some u ∧
    s1.agents = s.agents ∧ s1.accounts = s.accounts ∧ s1.categories = s.categories ∧
    s1.carriers = s.carriers ∧ s1.policies = s.policies ∧
    (∃ l, s1.users = s.users ++ l) ∧ s1.users.length = s.users.length + n := by
  unfold stepUser at h
  cases hf : findUser s r.firstname r.email with
  | some u0 =>
    rw [hf] at h
    simp only [Except.ok.injEq, Prod.mk.injEq] at h
    obtain ⟨rfl, rfl, rfl⟩ := h
    exact ⟨hf, rfl, rfl, rfl, rfl, rfl, ⟨[], by simp⟩, by simp⟩
  | none =>
    rw [hf] at h
    cases hr : requiredStr r.firstname with
    | error e => rw [hr] at h; simp at h
    | ok fn =>
      rw [hr] at h
      cases hc : castDate (normDate r.dob) with
      | error e => rw [hc] at h; simp at h
      | ok dob =>
        rw [hc] at h
        simp only [Except.ok.injEq, Prod.mk.injEq] at h
        obtain ⟨rfl, rfl, rfl⟩ := h
        obtain ⟨ho, hne⟩ := requiredStr_ok hr
        refine ⟨?_, rfl, rfl, rfl, rfl, rfl, ⟨_, rfl⟩, by simp⟩
        unfold findUser at hf ⊢
        rw [List.find?_append, hf]
        simp [ho, qEqStr, qEqOptStr_self]

theorem stepAccount_ok {r : Row} {uid : Nat} {s : Store} {a : Account} {s1 : Store} {n : Nat}
    (h : stepAccount r uid s = Except.ok (a, s1, n)) :
    findAccount s1 r.account_name uid = some a ∧ a.user_id = uid ∧
    s1.agents = s.agents ∧ s1.users = s.users ∧ s1.categories = s.categories ∧
    s1.carriers = s.carriers ∧ s1.policies = s.policies ∧
    (∃ l, s1.accounts = s.accounts ++ l) ∧ s1.accounts.length = s.accounts.length + n := by
  unfold stepAccount at h
  cases hf : findAccount s r.account_name uid with
  | some a0 =>
    rw [hf] at h
    simp only [Except.ok.injEq, Prod.mk.injEq] at h
    obtain ⟨rfl, rfl, rfl⟩ := h
    refine ⟨hf, ?_, rfl, rfl, rfl, rfl, rfl, ⟨[], by simp⟩, by simp⟩
    have hm := List.find?_some hf
    simp only [Bool.and_eq_true, decide_eq_true_eq] at hm
    exact hm.2
  | none =>
    rw [hf] at h
    cases hr : requiredStr r.account_name with
    | error e => rw [hr] at h; simp at h
    | ok name =>
      rw [hr] at h
      simp only [Except.ok.injEq, Prod.mk.injEq] at h
      obtain ⟨rfl, rfl, rfl⟩ := h
      obtain ⟨ho, hne⟩ := requiredStr_ok hr
      refine ⟨?_, rfl, rfl, rfl, rfl, rfl, rfl, ⟨_, rfl⟩, by simp⟩
      unfold findAccount at hf ⊢
      rw [List.find?_append, hf]
      simp [ho, qEqStr]

theorem stepCategory_ok {r : Row} {s : Store} {c : Category} {s1 : Store} {n : Nat}
    (h : stepCategory r s = Except.ok (c, s1, n)) :
    findCategory s1 r.category_name = some c ∧
    s1.agents = s.agents ∧ s1.users = s.users ∧ s1.accounts = s.accounts ∧
    s1.carriers = s.carriers ∧ s1.policies = s.policies ∧
    (∃ l, s1.categories = s.categories ++ l) ∧ s1.categories.length = s.categories.length + n := by
  unfold stepCategory at h
  cases hf : findCategory s r.category_name with
  | some c0 =>
    rw [hf] at h
    simp only [Except.ok.injEq, Prod.mk.injEq] at h
    obtain ⟨rfl, rfl, rfl⟩ := h
    exact ⟨hf, rfl, rfl, rfl, rfl, rfl, ⟨[], by simp⟩, by simp⟩
  | none =>
    rw [hf] at h
    cases hr : requiredStr r.category_name with
    | error e => rw [hr] at h; simp at h
    | ok name =>
      rw [hr] at h
      dsimp only at h
      split at h
      · simp at h
      · simp only [Except.ok.injEq, Prod.mk.injEq] at h
        obtain ⟨rfl, rfl, rfl⟩ := h
        obtain ⟨ho, hne⟩ := requiredStr_ok hr
        refine ⟨?_, rfl, rfl, rfl, rfl, rfl, ⟨_, rfl⟩, by simp⟩
        unfold findCategory at hf ⊢
        rw [List.find?_append, hf]
        simp [ho, qEqStr]

theorem stepCarrier_ok {r : Row} {s : Store} {c : Carrier} {s1 : Store} {n : Nat}
    (h : stepCarrier r s = Except.ok (c, s1, n)) :
    findCarrier s1 r.company_name = some c ∧
    s1.agents = s.agents ∧ s1.users = s.users ∧ s1.accounts = s.accounts ∧
    s1.categories = s.categories ∧ s1.policies = s.policies ∧
    (∃ l, s1.carriers = s.carriers ++ l) ∧ s1.carriers.length = s.carriers.length + n := by
  unfold stepCarrier at h
  cases hf : findCarrier s r.company_name with
  | some c0 =>
    rw [hf] at h
    simp only [Except.ok.injEq, Prod.mk.injEq] at h
    obtain ⟨rfl, rfl, rfl⟩ := h
    exact ⟨hf, rfl, rfl, rfl, rfl, rfl, ⟨[], by simp⟩, by simp⟩
  | none =>
    rw [hf] at h
    cases hr : requiredStr r.company_name with
    | error e => rw [hr] at h; simp at h
    | ok name =>
      rw [hr] at h
      dsimp only at h
      split at h
      · simp at h
      · simp only [Except.ok.injEq, Prod.mk.injEq] at h
        obtain ⟨rfl, rfl, rfl⟩ := h
        obtain ⟨ho, hne⟩ := requiredStr_ok hr
        refine ⟨?_, rfl, rfl, rfl, rfl, rfl, ⟨_, rfl⟩, by simp⟩
        unfold findCarrier at hf ⊢
        rw [List.find?_append, hf]
        simp [ho, qEqStr]

theorem createPolicy_ok {r : Row} {aid uid acid cid wid : Nat} {s : Store}
    {p : Policy} {s1 : Store}
    (h : createPolicy r aid uid acid cid wid s = Except.ok (p, s1)) :
    r.policy_number = some p.policy_number ∧
    s1.agents = s.agents ∧ s1.users = s.users ∧ s1.accounts = s.accounts ∧
    s1.categories = s.categories ∧ s1.carriers = s.carriers ∧
    s1.policies = s.policies ++ [p] ∧
    p.agent_id = aid ∧ p.user_id = uid ∧ p.account_id = acid ∧
    p.category_id = cid ∧ p.carrier_id = wid ∧
    p.premium_amount = normPremium r.premium_amount ∧
    p.premium_amount_written = normPremium r.premium_amount_written ∧
    p.policy_mode = normPolicyMode r.policy_mode ∧
    p.primary = jsIsTrueLiteral r.primary ∧
    p.hasActive = jsIsTrueLiteral r.hasActive := by
  unfold createPolicy at h
  cases hr : requiredStr r.policy_number with
  | error e => rw [hr] at h; simp at h
  | ok pn =>
    rw [hr] at h
    cases hc1 : castDate (normDate r.policy_start_date) with
    | error e => rw [hc1] at h; simp at h
    | ok psd =>
      rw [hc1] at h
      cases hc2 : castDate (normDate r.policy_end_date) with
      | error e => rw [hc2] at h; simp at h
      | ok ped =>
        rw [hc2] at h
        dsimp only at h
        split at h
        · simp at h
        · simp only [Except.ok.injEq, Prod.mk.injEq] at h
          obtain ⟨rfl, rfl⟩ := h
          obtain ⟨ho, hne⟩ := requiredStr_ok hr
          exact ⟨ho, rfl, rfl, rfl, rfl, rfl, rfl, rfl, rfl, rfl, rfl, rfl,
                 rfl, rfl, rfl, rfl, rfl⟩

theorem stepPolicy_ok {r : Row} {aid uid acid cid wid : Nat} {s : Store}
    {p : Policy} {s1 : Store} {n : Nat}
    (h : stepPolicy r aid uid acid cid wid s = Except.ok (p, s1, n)) :
    findPolicy s1 r.policy_number = some p ∧
    s1.agents = s.agents ∧ s1.users = s.users ∧ s1.accounts = s.accounts ∧
    s1.categories = s.categories ∧ s1.carriers = s.carriers ∧
    (∃ l, s1.policies = s.policies ++ l) ∧ s1.policies.length = s.policies.length + n := by
  unfold stepPolicy at h
  cases hf : findPolicy s r.policy_number with
  | some p0 =>
    rw [hf] at h
    simp only [Except.ok.injEq, Prod.mk.injEq] at h
    obtain ⟨rfl, rfl, rfl⟩ := h
    exact ⟨hf, rfl, rfl, rfl, rfl, rfl, ⟨[], by simp⟩, by simp⟩
  | none =>
    rw [hf] at h
    cases hcr : createPolicy r aid uid acid cid wid s with
    | error e => rw [hcr] at h; simp at h
    | ok ps =>
      rw [hcr] at h
      obtain ⟨p1, s2⟩ := ps
      simp only [Except.ok.injEq, Prod.mk.injEq] at h
      obtain ⟨rfl, rfl, rfl⟩ := h
      obtain ⟨ho, _, _, _, _, _, hpol, _⟩ := createPolicy_ok hcr
      refine ⟨?_, (createPolicy_ok hcr).2.1, (createPolicy_ok hcr).2.2.1,
              (createPolicy_ok hcr).2.2.2.1, (createPolicy_ok hcr).2.2.2.2.1,
              (createPolicy_ok hcr).2.2.2.2.2.1, ⟨_, hpol⟩, by simp [hpol]⟩
      unfold findPolicy at hf ⊢
      rw [hpol, List.find?_append, hf]
      simp [ho, qEqStr]

/-! ### Monotonicity of lookups under store extension -/

theorem findAgent_mono {s t : Store} {q : Option String} {a : Agent}
    (h : findAgent s q = some a) (he : StoreExtends s t) : findAgent t q = some a := by
  obtain ⟨l, hl⟩ := he.agents
  unfold findAgent at h ⊢
  rw [hl]
  exact find?_append_some h

theorem findUser_mono {s t : Store} {fn em : Option String} {u : User}
    (h : findUser s fn em = some u) (he : StoreExtends s t) : findUser t fn em = some u := by
  obtain ⟨l, hl⟩ := he.users
  unfold findUser at h ⊢
  rw [hl]
  exact find?_append_some h

theorem findAccount_mono {s t : Store} {q : Option String} {uid : Nat} {a : Account}
    (h : findAccount s q uid = some a) (he : StoreExtends s t) : findAccount t q uid = some a := by
  obtain ⟨l, hl⟩ := he.accounts
  unfold findAccount at h ⊢
  rw [hl]
  exact find?_append_some h

theorem findCategory_mono {s t : Store} {q : Option String} {c : Category}
    (h : findCategory s q = some c) (he : StoreExtends s t) : findCategory t q = some c := by
  obtain ⟨l, hl⟩ := he.categories
  unfold findCategory at h ⊢
  rw [hl]
  exact find?_append_some h

theorem findCarrier_mono {s t : Store} {q : Option String} {c : Carrier}
    (h : findCarrier s q = some c) (he : StoreExtends s t) : findCarrier t q = some c := by
  obtain ⟨l, hl⟩ := he.carriers
  unfold findCarrier at h ⊢
  rw [hl]
  exact find?_append_some h

theorem findPolicy_mono {s t : Store} {q : Option String} {p : Policy}
    (h : findPolicy s q = some p) (he : StoreExtends s t) : findPolicy t q = some p := by
  obtain ⟨l, hl⟩ := he.policies
  unfold findPolicy at h ⊢
  rw [hl]
  exact find?_append_some h

/-- Build a trivial list extension from an equality. -/
theorem extOfEq {α : Type} {a b : List α} (h : b = a) : ∃ l, b = a ++ l :=
  ⟨[], by simp [h]⟩

theorem stepAgent_extends {r : Row} {s : Store} {a : Agent} {s1 : Store} {n : Nat}
    (h : stepAgent r s = Except.ok (a, s1, n)) : StoreExtends s s1 := by
  obtain ⟨_, hu, hac, hcat, hcar, hp, hag, _⟩ := stepAgent_ok h
  exact ⟨hag, extOfEq hu, extOfEq hac, extOfEq hcat, extOfEq hcar, extOfEq hp⟩

theorem stepUser_extends {r : Row} {s : Store} {u : User} {s1 : Store} {n : Nat}
    (h : stepUser r s = Except.ok (u, s1, n)) : StoreExtends s s1 := by
  obtain ⟨_, hag, hac, hcat, hcar, hp, hu, _⟩ := stepUser_ok h
  exact ⟨extOfEq hag, hu, extOfEq hac, extOfEq hcat, extOfEq hcar, extOfEq hp⟩

theorem stepAccount_extends {r : Row} {uid : Nat} {s : Store} {a : Account} {s1 : Store} {n : Nat}
    (h : stepAccount r uid s = Except.ok (a, s1, n)) : StoreExtends s s1 := by
  obtain ⟨_, _, hag, hu, hcat, hcar, hp, hac, _⟩ := stepAccount_ok h
  exact ⟨extOfEq hag, extOfEq hu, hac, extOfEq hcat, extOfEq hcar, extOfEq hp⟩

theorem stepCategory_extends {r : Row} {s : Store} {c : Category} {s1 : Store} {n : Nat}
    (h : stepCategory r s = Except.ok (c, s1, n)) : StoreExtends s s1 := by
  obtain ⟨_, hag, hu, hac, hcar, hp, hcat, _⟩ := stepCategory_ok h
  exact ⟨extOfEq hag, extOfEq hu, extOfEq hac, hcat, extOfEq hcar, extOfEq hp⟩

theorem stepCarrier_extends {r : Row} {s : Store} {c : Carrier} {s1 : Store} {n : Nat}
    (h : stepCarrier r s = Except.ok (c, s1, n)) : StoreExtends s s1 := by
  obtain ⟨_, hag, hu, hac, hcat, hp, hcar, _⟩ := stepCarrier_ok h
  exact ⟨extOfEq hag, extOfEq hu, extOfEq hac, extOfEq hcat, hcar, extOfEq hp⟩

theorem stepPolicy_extends {r : Row} {aid uid acid cid wid : Nat} {s : Store}
    {p : Policy} {s1 : Store} {n : Nat}
    (h : stepPolicy r aid uid acid cid wid s = Except.ok (p, s1, n)) : StoreExtends s s1 := by
  obtain ⟨_, hag, hu, hac, hcat, hcar, hp, _⟩ := stepPolicy_ok h
  exact ⟨extOfEq hag, extOfEq hu, extOfEq hac, extOfEq hcat, extOfEq hcar, hp⟩

/-- Elimination principle for a successful `processRow`: the six step
results in order. -/
theorem processRow_ok_elim {r : Row} {s s' : Store} {d : Stats}
    (h : processRow r s = Except.ok (s', d)) :
    ∃ agent s1 da user s2 du account s3 dacc cat s4 dcat car s5 dcar p s6 dp,
      stepAgent r s = Except.ok (agent, s1, da) ∧
      stepUser r s1 = Except.ok (user, s2, du) ∧
      stepAccount r user.id s2 = Except.ok (account, s3, dacc) ∧
      stepCategory r s3 = Except.ok (cat, s4, dcat) ∧
      stepCarrier r s4 = Except.ok (car, s5, dcar) ∧
      stepPolicy r agent.id user.id account.id cat.id car.id s5 = Except.ok (p, s6, dp) ∧
      s' = s6 ∧ d = ⟨da, du, dacc, dcat, dcar, dp⟩ := by
  unfold processRow at h
  cases h1 : stepAgent r s with
  | error e => rw [h1] at h; simp at h
  | ok t1 =>
    obtain ⟨agent, s1, da⟩ := t1
    rw [h1] at h
    dsimp only at h
    cases h2 : stepUser r s1 with
    | error e => rw [h2] at h; simp at h
    | ok t2 =>
      obtain ⟨user, s2, du⟩ := t2
      rw [h2] at h
      dsimp only at h
      cases h3 : stepAccount r user.id s2 with
      | error e => rw [h3] at h; simp at h
      | ok t3 =>
        obtain ⟨account, s3, dacc⟩ := t3
        rw [h3] at h
        dsimp only at h
        cases h4 : stepCategory r s3 with
        | error e => rw [h4] at h; simp at h
        | ok t4 =>
          obtain ⟨cat, s4, dcat⟩ := t4
          rw [h4] at h
          dsimp only at h
          cases h5 : stepCarrier r s4 with
          | error e => rw [h5] at h; simp at h
          | ok t5 =>
            obtain ⟨car, s5, dcar⟩ := t5
            rw [h5] at h
            dsimp only at h
            cases h6 : stepPolicy r agent.id user.id account.id cat.id car.id s5 with
            | error e => rw [h6] at h; simp at h
            | ok t6 =>
              obtain ⟨p, s6, dp⟩ := t6
              rw [h6] at h
              dsimp only at h
              simp only [Except.ok.injEq, Prod.mk.injEq] at h
              obtain ⟨rfl, rfl⟩ := h
              exact ⟨agent, s1, da, user, s2, du, account, s3, dacc, cat, s4, dcat,
                     car, s5, dcar, p, s6, dp, rfl, h2, h3, h4, h5, h6, rfl, rfl⟩

/-- A successful `processRow` only appends records. -/
theorem processRow_extends {r : Row} {s s' : Store} {d : Stats}
    (h : processRow r s = Except.ok (s', d)) : StoreExtends s s' := by
  obtain ⟨agent, s1, da, user, s2, du, account, s3, dacc, cat, s4, dcat,
          car, s5, dcar, p, s6, dp, h1, h2, h3, h4, h5, h6, rfl, rfl⟩ := processRow_ok_elim h
  exact storeExtends_trans (stepAgent_extends h1)
    (storeExtends_trans (stepUser_extends h2)
      (storeExtends_trans (stepAccount_extends h3)
        (storeExtends_trans (stepCategory_extends h4)
          (storeExtends_trans (stepCarrier_extends h5) (stepPolicy_extends h6)))))

/-! ### A row all of whose lookups succeed is a no-op -/

theorem stepAgent_found {r : Row} {s : Store} {a : Agent}
    (hf : findAgent s r.agent = some a) : stepAgent r s = Except.ok (a, s, 0) := by
  unfold stepAgent
  rw [hf]

theorem stepUser_found {r : Row} {s : Store} {u : User}
    (hf : findUser s r.firstname r.email = some u) : stepUser r s = Except.ok (u, s, 0) := by
  unfold stepUser
  rw [hf]

theorem stepAccount_found {r : Row} {uid : Nat} {s : Store} {a : Account}
    (hf : findAccount s r.account_name uid = some a) :
    stepAccount r uid s = Except.ok (a, s, 0) := by
  unfold stepAccount
  rw [hf]

theorem stepCategory_found {r : Row} {s : Store} {c : Category}
    (hf : findCategory s r.category_name = some c) : stepCategory r s = Except.ok (c, s, 0) := by
  unfold stepCategory
  rw [hf]

theorem stepCarrier_found {r : Row} {s : Store} {c : Carrier}
    (hf : findCarrier s r.company_name = some c) : stepCarrier r s = Except.ok (c, s, 0) := by
  unfold stepCarrier
  rw [hf]

theorem stepPolicy_found {r : Row} {aid uid acid cid wid : Nat} {s : Store} {p : Policy}
    (hf : findPolicy s r.policy_number = some p) :
    stepPolicy r aid uid acid cid wid s = Except.ok (p, s, 0) := by
  unfold stepPolicy
  rw [hf]

/-- A fully seen row is processed without any write and with all-zero
counter increments: every lookup hits, so no `create` runs. -/
theorem processRow_of_seen {r : Row} {s : Store} (hs : rowSeen r s = true) :
    processRow r s = Except.ok (s, Stats.zero) := by
  unfold rowSeen at hs
  simp only [Bool.and_eq_true] at hs
  obtain ⟨⟨⟨⟨hA, hU⟩, hC⟩, hW⟩, hP⟩ := hs
  obtain ⟨a, ha⟩ := Option.isSome_iff_exists.mp hA
  cases hu : findUser s r.firstname r.email with
  | none => rw [hu] at hU; simp at hU
  | some u =>
    rw [hu] at hU
    dsimp only at hU
    obtain ⟨ac, hac⟩ := Option.isSome_iff_exists.mp hU
    obtain ⟨c, hc⟩ := Option.isSome_iff_exists.mp hC
    obtain ⟨w, hw⟩ := Option.isSome_iff_exists.mp hW
    obtain ⟨p, hp⟩ := Option.isSome_iff_exists.mp hP
    unfold processRow
    rw [stepAgent_found ha]
    dsimp only
    rw [stepUser_found hu]
    dsimp only
    rw [stepAccount_found hac]
    dsimp only
    rw [stepCategory_found hc]
    dsimp only
    rw [stepCarrier_found hw]
    dsimp only
    rw [stepPolicy_found hp]
    rfl

/-- Seen rows stay seen when the store is only extended. -/
theorem rowSeen_mono {r : Row} {s t : Store} (hs : rowSeen r s = true)
    (he : StoreExtends s t) : rowSeen r t = true := by
  unfold rowSeen at hs ⊢
  simp only [Bool.and_eq_true] at hs ⊢
  obtain ⟨⟨⟨⟨hA, hU⟩, hC⟩, hW⟩, hP⟩ := hs
  obtain ⟨a, ha⟩ := Option.isSome_iff_exists.mp hA
  obtain ⟨c, hc⟩ := Option.isSome_iff_exists.mp hC
  obtain ⟨w, hw⟩ := Option.isSome_iff_exists.mp hW
  obtain ⟨p, hp⟩ := Option.isSome_iff_exists.mp hP
  refine ⟨⟨⟨⟨?_, ?_⟩, ?_⟩, ?_⟩, ?_⟩
  · rw [findAgent_mono ha he]; rfl
  · cases hu : findUser s r.firstname r.email with
    | none => rw [hu] at hU; simp at hU
    | some u =>
      rw [hu] at hU
      dsimp only at hU
      obtain ⟨ac, hac⟩ := Option.isSome_iff_exists.mp hU
      rw [findUser_mono hu he]
      dsimp only
      rw [findAccount_mono hac he]
      rfl
  · rw [findCategory_mono hc he]; rfl
  · rw [findCarrier_mono hw he]; rfl
  · rw [findPolicy_mono hp he]; rfl

/-- After a successful `processRow`, all six of the row's lookups
succeed in the resulting store. -/
theorem processRow_seen {r : Row} {s s' : Store} {d : Stats}
    (h : processRow r s = Except.ok (s', d)) : rowSeen r s' = true := by
  obtain ⟨agent, s1, da, user, s2, du, account, s3, dacc, cat, s4, dcat,
          car, s5, dcar, p, s6, dp, h1, h2, h3, h4, h5, h6, rfl, rfl⟩ := processRow_ok_elim h
  have e2 := stepUser_extends h2
  have e3 := stepAccount_extends h3
  have e4 := stepCategory_extends h4
  have e5 := stepCarrier_extends h5
  have e6 := stepPolicy_extends h6
  have e26 := storeExtends_trans e2 (storeExtends_trans e3
    (storeExtends_trans e4 (storeExtends_trans e5 e6)))
  have e36 := storeExtends_trans e3 (storeExtends_trans e4 (storeExtends_trans e5 e6))
  have e46 := storeExtends_trans e4 (storeExtends_trans e5 e6)
  have e56 := storeExtends_trans e5 e6
  have hA := findAgent_mono (stepAgent_ok h1).1 e26
  have hU := findUser_mono (stepUser_ok h2).1 e36
  have hAc := findAccount_mono (stepAccount_ok h3).1 e46
  have hC := findCategory_mono (stepCategory_ok h4).1 e56
  have hW := findCarrier_mono (stepCarrier_ok h5).1 e6
  have hP := (stepPolicy_ok h6).1
  unfold rowSeen
  simp only [Bool.and_eq_true]
  refine ⟨⟨⟨⟨?_, ?_⟩, ?_⟩, ?_⟩, ?_⟩
  · rw [hA]; rfl
  · rw [hU]
    dsimp only
    rw [hAc]
    rfl
  · rw [hC]; rfl
  · rw [hW]; rfl
  · rw [hP]; rfl

/-! ### Rows whose create-side validations cannot fail -/

theorem requiredStr_total {o : Option String} (ht : jsTruthy o = true) :
    ∃ v, requiredStr o = Except.ok v ∧ o = some v := by
  cases o with
  | none => simp [jsTruthy] at ht
  | some s =>
    simp only [jsTruthy, ne_eq, decide_eq_true_eq] at ht
    exact ⟨s, by simp [requiredStr, ht], rfl⟩

theorem castDate_total {d : DateVal} (hd : d ≠ DateVal.invalid) :
    ∃ x, castDate d = Except.ok x := by
  cases d with
  | null => exact ⟨none, rfl⟩
  | valid t => exact ⟨some t, rfl⟩
  | invalid => exact absurd rfl hd

theorem findCategory_none_any {s : Store} {name : String}
    (hf : findCategory s (some name) = none) :
    (s.categories.any fun c => c.name = name) = false := by
  unfold findCategory at hf
  rw [List.find?_eq_none] at hf
  rw [List.any_eq_false]
  intro c hc
  have := hf c hc
  simp only [qEqStr, decide_eq_true_eq] at this ⊢
  exact fun hcc => this hcc.symm

theorem findCarrier_none_any {s : Store} {name : String}
    (hf : findCarrier s (some name) = none) :
    (s.carriers.any fun c => c.name = name) = false := by
  unfold findCarrier at hf
  rw [List.find?_eq_none] at hf
  rw [List.any_eq_false]
  intro c hc
  have := hf c hc
  simp only [qEqStr, decide_eq_true_eq] at this ⊢
  exact fun hcc => this hcc.symm

theorem findPolicy_none_any {s : Store} {name : String}
    (hf : findPolicy s (some name) = none) :
    (s.policies.any fun p => p.policy_number = name) = false := by
  unfold findPolicy at hf
  rw [List.find?_eq_none] at hf
  rw [List.any_eq_false]
  intro c hc
  have := hf c hc
  simp only [qEqStr, decide_eq_true_eq] at this ⊢
  exact fun hcc => this hcc.symm

theorem stepAgent_total {r : Row} (ht : jsTruthy r.agent = true) (s : Store) :
    ∃ t, stepAgent r s = Except.ok t := by
  cases hf : findAgent s r.agent with
  | some a => exact ⟨(a, s, 0), stepAgent_found hf⟩
  | none =>
    obtain ⟨v, hrv, hov⟩ := requiredStr_total ht
    exact ⟨_, by unfold stepAgent; rw [hf, hrv]⟩

theorem stepUser_total {r : Row} (ht : jsTruthy r.firstname = true)
    (hd : normDate r.dob ≠ DateVal.invalid) (s : Store) :
    ∃ t, stepUser r s = Except.ok t := by
  cases hf : findUser s r.firstname r.email with
  | some u => exact ⟨(u, s, 0), stepUser_found hf⟩
  | none =>
    obtain ⟨v, hrv, hov⟩ := requiredStr_total ht
    obtain ⟨x, hx⟩ := castDate_total hd
    exact ⟨_, by unfold stepUser; rw [hf, hrv, hx]⟩

theorem stepAccount_total {r : Row} {uid : Nat} (ht : jsTruthy r.account_name = true)
    (s : Store) : ∃ t, stepAccount r uid s = Except.ok t := by
  cases hf : findAccount s r.account_name uid with
  | some a => exact ⟨(a, s, 0), stepAccount_found hf⟩
  | none =>
    obtain ⟨v, hrv, hov⟩ := requiredStr_total ht
    exact ⟨_, by unfold stepAccount; rw [hf, hrv]⟩

theorem stepCategory_total {r : Row} (ht : jsTruthy r.category_name = true) (s : Store) :
    ∃ t, stepCategory r s = Except.ok t := by
  cases hf : findCategory s r.category_name with
  | some c => exact ⟨(c, s, 0), stepCategory_found hf⟩
  | none =>
    obtain ⟨v, hrv, hov⟩ := requiredStr_total ht
    have hany := @findCategory_none_any s v (by rw [← hov]; exact hf)
    exact ⟨_, by unfold stepCategory; rw [hf, hrv]; dsimp only; rw [hany]; rfl⟩

theorem stepCarrier_total {r : Row} (ht : jsTruthy r.company_name = true) (s : Store) :
    ∃ t, stepCarrier r s = Except.ok t := by
  cases hf : findCarrier s r.company_name with
  | some c => exact ⟨(c, s, 0), stepCarrier_found hf⟩
  | none =>
    obtain ⟨v, hrv, hov⟩ := requiredStr_total ht
    have hany := @findCarrier_none_any s v (by rw [← hov]; exact hf)
    exact ⟨_, by unfold stepCarrier; rw [hf, hrv]; dsimp only; rw [hany]; rfl⟩

theorem stepPolicy_total {r : Row} {aid uid acid cid wid : Nat}
    (ht : jsTruthy r.policy_number = true)
    (hd1 : normDate r.policy_start_date ≠ DateVal.invalid)
    (hd2 : normDate r.policy_end_date ≠ DateVal.invalid) (s : Store) :
    ∃ t, stepPolicy r aid uid acid cid wid s = Except.ok t := by
  cases hf : findPolicy s r.policy_number with
  | some p => exact ⟨(p, s, 0), stepPolicy_found hf⟩
  | none =>
    obtain ⟨v, hrv, hov⟩ := requiredStr_total ht
    obtain ⟨x1, hx1⟩ := castDate_total hd1
    obtain ⟨x2, hx2⟩ := castDate_total hd2
    have hany := @findPolicy_none_any s v (by rw [← hov]; exact hf)
    exact ⟨_, by unfold stepPolicy createPolicy; rw [hf, hrv, hx1, hx2]; dsimp only; rw [hany]; rfl⟩

/-- A row passing `rowOk` is processed without error from any store. -/
theorem processRow_total {r : Row} (hok : rowOk r = true) (s : Store) :
    ∃ s' d, processRow r s = Except.ok (s', d) := by
  unfold rowOk at hok
  simp only [Bool.and_eq_true, bne_iff_ne, ne_eq] at hok
  obtain ⟨⟨⟨⟨⟨⟨⟨⟨hA, hF⟩, hD⟩, hAc⟩, hC⟩, hW⟩, hPn⟩, hD1⟩, hD2⟩ := hok
  obtain ⟨⟨agent, s1, da⟩, h1⟩ := stepAgent_total hA s
  obtain ⟨⟨user, s2, du⟩, h2⟩ := stepUser_total hF hD s1
  obtain ⟨⟨account, s3, dacc⟩, h3⟩ := @stepAccount_total r user.id hAc s2
  obtain ⟨⟨cat, s4, dcat⟩, h4⟩ := stepCategory_total hC s3
  obtain ⟨⟨car, s5, dcar⟩, h5⟩ := stepCarrier_total hW s4
  obtain ⟨⟨p, s6, dp⟩, h6⟩ :=
    @stepPolicy_total r agent.id user.id account.id cat.id car.id hPn hD1 hD2 s5
  refine ⟨s6, ⟨da, du, dacc, dcat, dcar, dp⟩, ?_⟩
  unfold processRow
  rw [h1]
  dsimp only
  rw [h2]
  dsimp only
  rw [h3]
  dsimp only
  rw [h4]
  dsimp only
  rw [h5]
  dsimp only
  rw [h6]

/-! ### Counting policies with a given policy number -/

theorem pcount_zero_of_find_none {s : Store} {v : String}
    (hf : findPolicy s (some v) = none) : pcount s v = 0 := by
  unfold findPolicy at hf
  rw [List.find?_eq_none] at hf
  unfold pcount
  rw [List.length_eq_zero, List.filter_eq_nil_iff]
  intro p hp
  have := hf p hp
  simp only [qEqStr, decide_eq_true_eq] at this ⊢
  exact fun hc => this hc.symm

theorem pcount_ge_one_of_mem {s : Store} {v : String} {p : Policy}
    (hp : p ∈ s.policies) (hv : p.policy_number = v) : 1 ≤ pcount s v := by
  unfold pcount
  have hmem : p ∈ s.policies.filter fun q => q.policy_number = v :=
    List.mem_filter.mpr ⟨hp, by simp [hv]⟩
  exact List.length_pos_of_mem hmem

theorem pcount_mono {s t : Store} {v : String} (he : StoreExtends s t) :
    pcount s v ≤ pcount t v := by
  obtain ⟨l, hl⟩ := he.policies
  unfold pcount
  rw [hl, List.filter_append, List.length_append]
  omega

theorem pcount_eq_of_policies_eq {s t : Store} {v : String}
    (h : t.policies = s.policies) : pcount t v = pcount s v := by
  unfold pcount
  rw [h]

/-- One row changes the count of a given policy number either not at
all, or from zero to one when the row carries exactly that number. -/
theorem processRow_pcount {r : Row} {s s' : Store} {d : Stats} {v : String}
    (h : processRow r s = Except.ok (s', d)) :
    pcount s' v = pcount s v ∨
    (pcount s v = 0 ∧ pcount s' v = 1 ∧ r.policy_number = some v) := by
  obtain ⟨agent, s1, da, user, s2, du, account, s3, dacc, cat, s4, dcat,
          car, s5, dcar, p, s6, dp, h1, h2, h3, h4, h5, h6, rfl, rfl⟩ := processRow_ok_elim h
  have hp5 : s5.policies = s.policies := by
    obtain ⟨_, _, _, _, _, hq5, _, _⟩ := stepCarrier_ok h5
    obtain ⟨_, _, _, _, _, hq4, _, _⟩ := stepCategory_ok h4
    obtain ⟨_, _, _, _, _, _, hq3, _, _⟩ := stepAccount_ok h3
    obtain ⟨_, _, _, _, _, hq2, _, _⟩ := stepUser_ok h2
    obtain ⟨_, _, _, _, _, hq1, _, _⟩ := stepAgent_ok h1
    rw [hq5, hq4, hq3, hq2, hq1]
  unfold stepPolicy at h6
  cases hf : findPolicy s5 r.policy_number with
  | some p0 =>
    rw [hf] at h6
    simp only [Except.ok.injEq, Prod.mk.injEq] at h6
    obtain ⟨rfl, rfl, rfl⟩ := h6
    exact Or.inl (pcount_eq_of_policies_eq hp5)
  | none =>
    rw [hf] at h6
    cases hcr : createPolicy r agent.id user.id account.id cat.id car.id s5 with
    | error e => rw [hcr] at h6; simp at h6
    | ok ps =>
      obtain ⟨p1, s7⟩ := ps
      rw [hcr] at h6
      simp only [Except.ok.injEq, Prod.mk.injEq] at h6
      obtain ⟨rfl, rfl, rfl⟩ := h6
      obtain ⟨ho, _, _, _, _, _, hpol, _⟩ := createPolicy_ok hcr
      by_cases hv : p1.policy_number = v
      · have h0 : pcount s5 v = 0 := pcount_zero_of_find_none (by rw [← hv, ← ho]; exact hf)
        refine Or.inr ⟨?_, ?_, by rw [ho, hv]⟩
        · rw [← pcount_eq_of_policies_eq hp5]
          exact h0
        · unfold pcount at h0 ⊢
          rw [hpol, List.filter_append, List.length_append, h0]
          simp [hv]
      · refine Or.inl ?_
        unfold pcount
        rw [hpol, hp5, List.filter_append, List.length_append]
        simp [hv]

/-- A row carrying policy number `v` leaves at least one stored policy
with that number. -/
theorem processRow_pcount_ge {r : Row} {s s' : Store} {d : Stats} {v : String}
    (h : processRow r s = Except.ok (s', d)) (hpn : r.policy_number = some v) :
    1 ≤ pcount s' v := by
  obtain ⟨agent, s1, da, user, s2, du, account, s3, dacc, cat, s4, dcat,
          car, s5, dcar, p, s6, dp, h1, h2, h3, h4, h5, h6, rfl, rfl⟩ := processRow_ok_elim h
  have hfind := (stepPolicy_ok h6).1
  have hfind2 : List.find? (fun q : Policy => qEqStr r.policy_number q.policy_number)
      s'.policies = some p := hfind
  have hpmem := List.mem_of_find?_eq_some hfind2
  have hpv := List.find?_some hfind2
  rw [hpn] at hpv
  simp only [qEqStr, decide_eq_true_eq] at hpv
  exact pcount_ge_one_of_mem hpmem hpv.symm

/-! ### The whole row loop -/

/-- The row loop only appends records. -/
theorem processRows_extends {rows : List Row} {s s' : Store} {st : Stats}
    (h : processRows rows s = (s', Except.ok st)) : StoreExtends s s' := by
  induction rows generalizing s st with
  | nil =>
    unfold processRows at h
    simp only [Prod.mk.injEq] at h
    rw [h.1]
    exact storeExtends_refl s'
  | cons r rest ih =>
    unfold processRows at h
    cases h1 : processRow r s with
    | error e => rw [h1] at h; simp at h
    | ok t =>
      obtain ⟨s1, d⟩ := t
      rw [h1] at h
      dsimp only at h
      cases h2 : processRows rest s1 with
      | mk s2 res =>
        rw [h2] at h
        cases res with
        | ok st2 =>
          dsimp only at h
          simp only [Prod.mk.injEq] at h
          obtain ⟨rfl, -⟩ := h
          exact storeExtends_trans (processRow_extends h1) (ih h2)
        | error e => simp at h

/-- After a successful run, every processed row is fully seen in the
final store. -/
theorem processRows_seen {rows : List Row} {s s' : Store} {st : Stats}
    (h : processRows rows s = (s', Except.ok st)) :
    ∀ r0 ∈ rows, rowSeen r0 s' = true := by
  induction rows generalizing s st with
  | nil => intro r0 hr0; simp at hr0
  | cons r rest ih =>
    intro r0 hr0
    unfold processRows at h
    cases h1 : processRow r s with
    | error e => rw [h1] at h; simp at h
    | ok t =>
      obtain ⟨s1, d⟩ := t
      rw [h1] at h
      dsimp only at h
      cases h2 : processRows rest s1 with
      | mk s2 res =>
        rw [h2] at h
        cases res with
        | ok st2 =>
          dsimp only at h
          simp only [Prod.mk.injEq] at h
          obtain ⟨rfl, -⟩ := h
          rcases List.mem_cons.mp hr0 with rfl | hmem
          · exact rowSeen_mono (processRow_seen h1) (processRows_extends h2)
          · exact ih h2 r0 hmem
        | error e => simp at h

/-- On a store where every row is already seen, the loop is a pure
no-op with all-zero stats. -/
theorem processRows_of_seen {rows : List Row} {s : Store}
    (hall : ∀ r ∈ rows, rowSeen r s = true) :
    processRows rows s = (s, Except.ok Stats.zero) := by
  induction rows with
  | nil => rfl
  | cons r rest ih =>
    have h1 := processRow_of_seen (hall r (by simp))
    unfold processRows
    rw [h1]
    dsimp only
    rw [ih fun r0 hr0 => hall r0 (by simp [hr0])]
    rfl

/-- Rows passing `rowOk` are processed without error. -/
theorem processRows_total {rows : List Row}
    (hall : ∀ r ∈ rows, rowOk r = true) :
    ∀ s, ∃ s' st, processRows rows s = (s', Except.ok st) := by
  induction rows with
  | nil => exact fun s => ⟨s, Stats.zero, rfl⟩
  | cons r rest ih =>
    intro s
    obtain ⟨s1, d, h1⟩ := processRow_total (hall r (by simp)) s
    obtain ⟨s2, st2, h2⟩ := ih (fun r0 hr0 => hall r0 (by simp [hr0])) s1
    refine ⟨s2, Stats.add d st2, ?_⟩
    unfold processRows
    rw [h1]
    dsimp only
    rw [h2]

/-- One row grows each collection by exactly its stats increment. -/
theorem processRow_lengths {r : Row} {s s' : Store} {d : Stats}
    (h : processRow r s = Except.ok (s', d)) :
    s'.agents.length = s.agents.length + d.agents ∧
    s'.users.length = s.users.length + d.users ∧
    s'.accounts.length = s.accounts.length + d.accounts ∧
    s'.categories.length = s.categories.length + d.categories ∧
    s'.carriers.length = s.carriers.length + d.carriers ∧
    s'.policies.length = s.policies.length + d.policies := by
  obtain ⟨agent, s1, da, user, s2, du, account, s3, dacc, cat, s4, dcat,
          car, s5, dcar, p, s6, dp, h1, h2, h3, h4, h5, h6, rfl, rfl⟩ := processRow_ok_elim h
  obtain ⟨-, u1, ac1, ct1, cr1, pl1, ⟨l1, hl1⟩, len1⟩ := stepAgent_ok h1
  obtain ⟨-, ag2, ac2, ct2, cr2, pl2, ⟨l2, hl2⟩, len2⟩ := stepUser_ok h2
  obtain ⟨-, -, ag3, us3, ct3, cr3, pl3, ⟨l3, hl3⟩, len3⟩ := stepAccount_ok h3
  obtain ⟨-, ag4, us4, ac4, cr4, pl4, ⟨l4, hl4⟩, len4⟩ := stepCategory_ok h4
  obtain ⟨-, ag5, us5, ac5, ct5, pl5, ⟨l5, hl5⟩, len5⟩ := stepCarrier_ok h5
  obtain ⟨-, ag6, us6, ac6, ct6, cr6, ⟨l6, hl6⟩, len6⟩ := stepPolicy_ok h6
  refine ⟨?_, ?_, ?_, ?_, ?_, ?_⟩
  · rw [ag6, ag5, ag4, ag3, ag2]; exact len1
  · rw [us6, us5, us4, us3, len2, u1]
  · rw [ac6, ac5, ac4, len3, ac2, ac1]
  · rw [ct6, ct5, len4, ct3, ct2, ct1]
  · rw [cr6, len5, cr4, cr3, cr2, cr1]
  · rw [len6, pl5, pl4, pl3, pl2, pl1]

/-- Each counter ends exactly at its start value plus the number of
records of that kind the run appended. -/
theorem processRows_lengths {rows : List Row} {s s' : Store} {st : Stats}
    (h : processRows rows s = (s', Except.ok st)) :
    s'.agents.length = s.agents.length + st.agents ∧
    s'.users.length = s.users.length + st.users ∧
    s'.accounts.length = s.accounts.length + st.accounts ∧
    s'.categories.length = s.categories.length + st.categories ∧
    s'.carriers.length = s.carriers.length + st.carriers ∧
    s'.policies.length = s.policies.length + st.policies := by
  induction rows generalizing s st with
  | nil =>
    unfold processRows at h
    simp only [Prod.mk.injEq] at h
    obtain ⟨rfl, h2⟩ := h
    cases h2
    simp [Stats.zero]
  | cons r rest ih =>
    unfold processRows at h
    cases h1 : processRow r s with
    | error e => rw [h1] at h; simp at h
    | ok t =>
      obtain ⟨s1, d⟩ := t
      rw [h1] at h
      dsimp only at h
      cases h2 : processRows rest s1 with
      | mk s2 res =>
        rw [h2] at h
        cases res with
        | ok st2 =>
          dsimp only at h
          simp only [Prod.mk.injEq] at h
          obtain ⟨rfl, h3⟩ := h
          cases h3
          have L1 := processRow_lengths h1
          have L2 := ih h2
          simp only [Stats.add]
          omega
        | error e => simp at h

/-- The per-number policy count never grows past one, and never
shrinks, across a successful run. -/
theorem processRows_pcount_le {rows : List Row} {s s' : Store} {st : Stats} {v : String}
    (h : processRows rows s = (s', Except.ok st)) (hle : pcount s v ≤ 1) :
    pcount s' v ≤ 1 := by
  induction rows generalizing s st with
  | nil =>
    unfold processRows at h
    simp only [Prod.mk.injEq] at h
    rw [← h.1]
    exact hle
  | cons r rest ih =>
    unfold processRows at h
    cases h1 : processRow r s with
    | error e => rw [h1] at h; simp at h
    | ok t =>
      obtain ⟨s1, d⟩ := t
      rw [h1] at h
      dsimp only at h
      cases h2 : processRows rest s1 with
      | mk s2 res =>
        rw [h2] at h
        cases res with
        | ok st2 =>
          dsimp only at h
          simp only [Prod.mk.injEq] at h
          obtain ⟨rfl, -⟩ := h
          have hstep : pcount s1 v ≤ 1 := by
            rcases @processRow_pcount r s s1 d v h1 with heq | ⟨-, hone, -⟩
            · omega
            · omega
          exact ih h2 hstep
        | error e => simp at h

/-- Once some row carrying policy number `v` is in the batch, a
successful run ends with exactly one stored policy numbered `v`. -/
theorem processRows_pcount_hit {rows : List Row} {s s' : Store} {st : Stats} {v : String}
    (h : processRows rows s = (s', Except.ok st)) (hle : pcount s v ≤ 1)
    (hhit : ∃ r ∈ rows, r.policy_number = some v) : pcount s' v = 1 := by
  induction rows generalizing s st with
  | nil => simp at hhit
  | cons r rest ih =>
    unfold processRows at h
    cases h1 : processRow r s with
    | error e => rw [h1] at h; simp at h
    | ok t =>
      obtain ⟨s1, d⟩ := t
      rw [h1] at h
      dsimp only at h
      cases h2 : processRows rest s1 with
      | mk s2 res =>
        rw [h2] at h
        cases res with
        | ok st2 =>
          dsimp only at h
          simp only [Prod.mk.injEq] at h
          obtain ⟨rfl, -⟩ := h
          have hstep : pcount s1 v ≤ 1 := by
            rcases @processRow_pcount r s s1 d v h1 with heq | ⟨-, hone, -⟩ <;> omega
          obtain ⟨r0, hr0, hpn0⟩ := hhit
          rcases List.mem_cons.mp hr0 with rfl | hmem
          · have hge1 : 1 ≤ pcount s1 v := processRow_pcount_ge h1 hpn0
            have hge2 := @pcount_mono s1 s2 v (processRows_extends h2)
            have hle2 := processRows_pcount_le h2 hstep
            omega
          · exact ih h2 hstep ⟨r0, hmem, hpn0⟩
        | error e => simp at h

/-! ### Bridging the code-side normalizations and the spec-side ones -/

theorem normPolicyMode_eq_spec (o : Option String) :
    normPolicyMode o = specPolicyMode o := by
  unfold normPolicyMode jsNumOrNull specPolicyMode
  cases jsParseInt o <;> rfl

theorem normPremium_eq_spec (o : Option String) :
    normPremium o = specDecimal o := by
  unfold normPremium jsNumOrZero specDecimal
  cases hp : jsParseFloat o with
  | none => rfl
  | some v =>
    by_cases hv : v = 0 <;> simp [hv]

theorem jsIsTrueLiteral_iff (o : Option String) :
    jsIsTrueLiteral o = true ↔ o = some "true" := by
  simp [jsIsTrueLiteral]

/-- A successful row whose policy number was not yet in the store ends
with that policy stored, carrying exactly the normalized optional
fields of the row. -/
theorem processRow_new_policy {r : Row} {s s' : Store} {d : Stats}
    (h : processRow r s = Except.ok (s', d))
    (hnew : findPolicy s r.policy_number = none) :
    ∃ p, findPolicy s' r.policy_number = some p ∧
      p.premium_amount = normPremium r.premium_amount ∧
      p.premium_amount_written = normPremium r.premium_amount_written ∧
      p.policy_mode = normPolicyMode r.policy_mode ∧
      p.primary = jsIsTrueLiteral r.primary ∧
      p.hasActive = jsIsTrueLiteral r.hasActive := by
  obtain ⟨agent, s1, da, user, s2, du, account, s3, dacc, cat, s4, dcat,
          car, s5, dcar, p, s6, dp, h1, h2, h3, h4, h5, h6, rfl, rfl⟩ := processRow_ok_elim h
  have hfind := (stepPolicy_ok h6).1
  have hp5 : s5.policies = s.policies := by
    obtain ⟨_, _, _, _, _, hq5, _, _⟩ := stepCarrier_ok h5
    obtain ⟨_, _, _, _, _, hq4, _, _⟩ := stepCategory_ok h4
    obtain ⟨_, _, _, _, _, _, hq3, _, _⟩ := stepAccount_ok h3
    obtain ⟨_, _, _, _, _, hq2, _, _⟩ := stepUser_ok h2
    obtain ⟨_, _, _, _, _, hq1, _, _⟩ := stepAgent_ok h1
    rw [hq5, hq4, hq3, hq2, hq1]
  have hf5 : findPolicy s5 r.policy_number = none := by
    unfold findPolicy at hnew ⊢
    rw [hp5]
    exact hnew
  unfold stepPolicy at h6
  rw [hf5] at h6
  cases hcr : createPolicy r agent.id user.id account.id cat.id car.id s5 with
  | error e => rw [hcr] at h6; simp at h6
  | ok ps =>
    obtain ⟨p1, s7⟩ := ps
    rw [hcr] at h6
    simp only [Except.ok.injEq, Prod.mk.injEq] at h6
    obtain ⟨rfl, rfl, rfl⟩ := h6
    obtain ⟨-, -, -, -, -, -, -, -, -, -, -, -, hpa, hpw, hpm, hpp, hph⟩ :=
      createPolicy_ok hcr
    exact ⟨p1, hfind, hpa, hpw, hpm, hpp, hph⟩

/-! ### The claims -/

/-- C4 (counterexample): the claim says an absent or unparsable date
text is stored as null and that an unparsable date never causes an
error to escape the row.  On the code, a non-empty unparsable date text
normalizes to Invalid Date — not null — and the store's Date cast then
rejects the row: the batch ends in the error path.  Witnessed at the
concrete row with `dob = "not-a-date"`. -/
theorem c4_counterexample :
    normDate (some "not-a-date") = DateVal.invalid ∧
    DateVal.invalid ≠ DateVal.null ∧
    (processRows [badDobRow] emptyStore).2 = Except.error dateCastMsg := by
  refine ⟨by decide, by decide, by decide⟩

/-- C4 (amended): each optional date field is normalized-and-cast to
null exactly when the field is absent or empty, to the parsed date when
the text parses, and to a Date cast rejection when a non-empty text is
unparsable — so an unparsable date text fails the row rather than
storing null. -/
theorem c4_amended_date_normalization (o : Option String) :
    castDate (normDate o) = specDateStored o := by
  unfold specDateStored
  cases o with
  | none => rfl
  | some s =>
    by_cases hs : s = ""
    · subst hs
      rfl
    · simp only [hs, if_false]
      unfold normDate jsTruthy
      simp only [ne_eq, hs, not_false_eq_true, decide_True, if_true]
      cases jsNewDate s <;> rfl

/-- C5 (counterexample): the claim says a numeric policy_mode text is
stored as its integer value.  On the code `parseInt(x) || null` turns
the parsed integer `0` into `null`: processing a row with
`policy_mode = "0"` stores null even though the text is numeric with
integer value `0`. -/
theorem c5_counterexample :
    jsParseInt (some "0") = some 0 ∧
    ((processRow zeroModeRow emptyStore).toOption.bind fun x =>
      findPolicy x.1 zeroModeRow.policy_number).map Policy.policy_mode = some none := by
  refine ⟨by decide, by decide⟩

/-- C5 (amended): for every row whose policy number is new, the created
Policy stores policy_mode as the parsed integer when that integer is
nonzero, and as null when the field is missing, non-numeric, or parses
to the integer 0; a non-numeric text like "abc" yields null without
failing the row. -/
theorem c5_amended_policy_mode (r : Row) (s s' : Store) (d : Stats)
    (h : processRow r s = Except.ok (s', d))
    (hnew : findPolicy s r.policy_number = none) :
    ∃ p, findPolicy s' r.policy_number = some p ∧
      p.policy_mode = specPolicyMode r.policy_mode := by
  obtain ⟨p, hfind, -, -, hpm, -, -⟩ := processRow_new_policy h hnew
  exact ⟨p, hfind, by rw [hpm, normPolicyMode_eq_spec]⟩

/-- C5 (witness): the amended theorem applied to the concrete row with
`policy_mode = "abc"`: the row processes without error and the stored
policy_mode is null. -/
theorem c5_amended_policy_mode_witness :
    ∃ p, findPolicy (runStore abcModeRow) abcModeRow.policy_number = some p ∧
      p.policy_mode = specPolicyMode abcModeRow.policy_mode :=
  c5_amended_policy_mode abcModeRow emptyStore (runStore abcModeRow) (runStats abcModeRow)
    (by decide) (by decide)

/-- C6: for every row whose policy number is new, the created Policy
stores premium_amount and premium_amount_written as the decimal number
parsed from the source text, defaulting to 0 when the field is missing
or non-numeric; in particular the empty text parses to no number and is
stored as 0. -/
theorem c6_premium_defaults (r : Row) (s s' : Store) (d : Stats)
    (h : processRow r s = Except.ok (s', d))
    (hnew : findPolicy s r.policy_number = none) :
    ∃ p, findPolicy s' r.policy_number = some p ∧
      p.premium_amount = specDecimal r.premium_amount ∧
      p.premium_amount_written = specDecimal r.premium_amount_written ∧
      specDecimal (some "") = 0 := by
  obtain ⟨p, hfind, hpa, hpw, -, -, -⟩ := processRow_new_policy h hnew
  exact ⟨p, hfind, by rw [hpa, normPremium_eq_spec],
         by rw [hpw, normPremium_eq_spec], by decide⟩

/-- C6 (witness): the theorem applied to the concrete row with
`premium_amount = ""`. -/
theorem c6_premium_defaults_witness :
    ∃ p, findPolicy (runStore emptyPremiumRow) emptyPremiumRow.policy_number = some p ∧
      p.premium_amount = specDecimal emptyPremiumRow.premium_amount ∧
      p.premium_amount_written = specDecimal emptyPremiumRow.premium_amount_written ∧
      specDecimal (some "") = 0 :=
  c6_premium_defaults emptyPremiumRow emptyStore (runStore emptyPremiumRow)
    (runStats emptyPremiumRow) (by decide) (by decide)

/-- C7: for every row whose policy number is new, the created Policy's
primary and hasActive flags are true if and only if the corresponding
source text is exactly the literal "true"; any other text — including
"TRUE" — and a missing field give false. -/
theorem c7_boolean_literal (r : Row) (s s' : Store) (d : Stats)
    (h : processRow r s = Except.ok (s', d))
    (hnew : findPolicy s r.policy_number = none) :
    ∃ p, findPolicy s' r.policy_number = some p ∧
      (p.primary = true ↔ r.primary = some "true") ∧
      (p.hasActive = true ↔ r.hasActive = some "true") := by
  obtain ⟨p, hfind, -, -, -, hpp, hph⟩ := processRow_new_policy h hnew
  exact ⟨p, hfind, by rw [hpp]; exact jsIsTrueLiteral_iff r.primary,
         by rw [hph]; exact jsIsTrueLiteral_iff r.hasActive⟩

/-- C7 (witness): the theorem applied to the concrete row with
`primary = "TRUE"` (wrong case, so stored false) and
`hasActive = "true"` (stored true). -/
theorem c7_boolean_literal_witness :
    ∃ p, findPolicy (runStore upperTrueRow) upperTrueRow.policy_number = some p ∧
      (p.primary = true ↔ upperTrueRow.primary = some "true") ∧
      (p.hasActive = true ↔ upperTrueRow.hasActive = some "true") :=
  c7_boolean_literal upperTrueRow emptyStore (runStore upperTrueRow) (runStats upperTrueRow)
    (by decide) (by decide)

/-- C1: in any batch containing two rows with the same policy number
(all rows valid for creation), the run completes without error, exactly
one Policy with that number is stored at the end — the second
occurrence found the existing Policy and wrote nothing — the store is
only ever appended to (no existing record is modified), and the
policies counter equals the number of Policy records actually created,
so the duplicated number is counted exactly once. -/
theorem c1_duplicate_policy_number (l1 l2 l3 : List Row) (r1 r2 : Row) (v : String)
    (s0 : Store)
    (hall : ∀ r ∈ l1 ++ r1 :: l2 ++ r2 :: l3, rowOk r = true)
    (hpn1 : r1.policy_number = some v) (hpn2 : r2.policy_number = some v)
    (h0 : pcount s0 v = 0) :
    ∃ s' st, processRows (l1 ++ r1 :: l2 ++ r2 :: l3) s0 = (s', Except.ok st) ∧
      pcount s' v = 1 ∧ StoreExtends s0 s' ∧
      s'.policies.length = s0.policies.length + st.policies := by
  obtain ⟨s', st, h⟩ := processRows_total hall s0
  refine ⟨s', st, h, ?_, processRows_extends h, (processRows_lengths h).2.2.2.2.2⟩
  exact processRows_pcount_hit h (by omega) ⟨r1, by simp, hpn1⟩

/-- C1 (witness): the theorem applied to the concrete two-row batch
`[sampleRow, dupRow]`, whose rows share policy number "PN1". -/
theorem c1_duplicate_policy_number_witness :
    ∃ s' st, processRows ([] ++ sampleRow :: [] ++ dupRow :: []) emptyStore =
        (s', Except.ok st) ∧
      pcount s' "PN1" = 1 ∧ StoreExtends emptyStore s' ∧
      s'.policies.length = emptyStore.policies.length + st.policies :=
  c1_duplicate_policy_number [] [] [] sampleRow dupRow "PN1" emptyStore
    (by decide) (by decide) (by decide) (by decide)

/-- C2: a successful row whose policy number was new creates a Policy
whose five reference fields are exactly the identities of the Agent,
User, Account, Category and Carrier resolved from that same row — in
the fixed order the loop runs them — and each referenced entity exists
in the store (the collections the references point into are untouched
by the Policy insertion itself, so they are the creation-time ones). -/
theorem c2_policy_references (r : Row) (s s' : Store) (d : Stats)
    (h : processRow r s = Except.ok (s', d))
    (hnew : findPolicy s r.policy_number = none) :
    ∃ p, findPolicy s' r.policy_number = some p ∧ p ∈ s'.policies ∧
      (∃ a, findAgent s' r.agent = some a ∧ p.agent_id = a.id ∧ a ∈ s'.agents) ∧
      (∃ u, findUser s' r.firstname r.email = some u ∧ p.user_id = u.id ∧ u ∈ s'.users ∧
        ∃ ac, findAccount s' r.account_name u.id = some ac ∧ p.account_id = ac.id ∧
          ac ∈ s'.accounts) ∧
      (∃ c, findCategory s' r.category_name = some c ∧ p.category_id = c.id ∧
        c ∈ s'.categories) ∧
      (∃ w, findCarrier s' r.company_name = some w ∧ p.carrier_id = w.id ∧
        w ∈ s'.carriers) := by
  obtain ⟨agent, s1, da, user, s2, du, account, s3, dacc, cat, s4, dcat,
          car, s5, dcar, p, s6, dp, h1, h2, h3, h4, h5, h6, rfl, rfl⟩ := processRow_ok_elim h
  have e2 := stepUser_extends h2
  have e3 := stepAccount_extends h3
  have e4 := stepCategory_extends h4
  have e5 := stepCarrier_extends h5
  have e6 := stepPolicy_extends h6
  have e26 := storeExtends_trans e2 (storeExtends_trans e3
    (storeExtends_trans e4 (storeExtends_trans e5 e6)))
  have e36 := storeExtends_trans e3 (storeExtends_trans e4 (storeExtends_trans e5 e6))
  have e46 := storeExtends_trans e4 (storeExtends_trans e5 e6)
  have e56 := storeExtends_trans e5 e6
  have hA := findAgent_mono (stepAgent_ok h1).1 e26
  have hU := findUser_mono (stepUser_ok h2).1 e36
  have hAc := findAccount_mono (stepAccount_ok h3).1 e46
  have hC := findCategory_mono (stepCategory_ok h4).1 e56
  have hW := findCarrier_mono (stepCarrier_ok h5).1 e6
  have hfind := (stepPolicy_ok h6).1
  have hA2 : List.find? (fun a : Agent => qEqStr r.agent a.name) s'.agents = some agent := hA
  have hU2 : List.find? (fun u : User =>
    qEqStr r.firstname u.firstname && qEqOptStr r.email u.email) s'.users = some user := hU
  have hAc2 : List.find? (fun a : Account =>
    qEqStr r.account_name a.name && a.user_id = user.id) s'.accounts = some account := hAc
  have hC2 : List.find? (fun c : Category =>
    qEqStr r.category_name c.name) s'.categories = some cat := hC
  have hW2 : List.find? (fun c : Carrier =>
    qEqStr r.company_name c.name) s'.carriers = some car := hW
  have hP2 : List.find? (fun q : Policy =>
    qEqStr r.policy_number q.policy_number) s'.policies = some p := hfind
  have mA : agent ∈ s'.agents := List.mem_of_find?_eq_some hA2
  have mU : user ∈ s'.users := List.mem_of_find?_eq_some hU2
  have mAc : account ∈ s'.accounts := List.mem_of_find?_eq_some hAc2
  have mC : cat ∈ s'.categories := List.mem_of_find?_eq_some hC2
  have mW : car ∈ s'.carriers := List.mem_of_find?_eq_some hW2
  have mP : p ∈ s'.policies := List.mem_of_find?_eq_some hP2
  have hp5 : s5.policies = s.policies := by
    obtain ⟨_, _, _, _, _, hq5, _, _⟩ := stepCarrier_ok h5
    obtain ⟨_, _, _, _, _, hq4, _, _⟩ := stepCategory_ok h4
    obtain ⟨_, _, _, _, _, _, hq3, _, _⟩ := stepAccount_ok h3
    obtain ⟨_, _, _, _, _, hq2, _, _⟩ := stepUser_ok h2
    obtain ⟨_, _, _, _, _, hq1, _, _⟩ := stepAgent_ok h1
    rw [hq5, hq4, hq3, hq2, hq1]
  have hf5 : findPolicy s5 r.policy_number = none := by
    unfold findPolicy at hnew ⊢
    rw [hp5]
    exact hnew
  unfold stepPolicy at h6
  rw [hf5] at h6
  cases hcr : createPolicy r agent.id user.id account.id cat.id car.id s5 with
  | error e => rw [hcr] at h6; simp at h6
  | ok ps =>
    obtain ⟨p1, s7⟩ := ps
    rw [hcr] at h6
    simp only [Except.ok.injEq, Prod.mk.injEq] at h6
    obtain ⟨rfl, rfl, rfl⟩ := h6
    obtain ⟨-, -, -, -, -, -, -, haid, huid, hacid, hcid, hwid, -, -, -, -, -⟩ :=
      createPolicy_ok hcr
    exact ⟨p1, hfind, mP, ⟨agent, hA, haid, mA⟩,
           ⟨user, hU, huid, mU, ⟨account, hAc, hacid, mAc⟩⟩,
           ⟨cat, hC, hcid, mC⟩, ⟨car, hW, hwid, mW⟩⟩

/-- C2 (witness): the theorem applied to `sampleRow` on the empty
store. -/
theorem c2_policy_references_witness :
    ∃ p, findPolicy (runStore sampleRow) sampleRow.policy_number = some p ∧
      p ∈ (runStore sampleRow).policies ∧
      (∃ a, findAgent (runStore sampleRow) sampleRow.agent = some a ∧
        p.agent_id = a.id ∧ a ∈ (runStore sampleRow).agents) ∧
      (∃ u, findUser (runStore sampleRow) sampleRow.firstname sampleRow.email = some u ∧
        p.user_id = u.id ∧ u ∈ (runStore sampleRow).users ∧
        ∃ ac, findAccount (runStore sampleRow) sampleRow.account_name u.id = some ac ∧
          p.account_id = ac.id ∧ ac ∈ (runStore sampleRow).accounts) ∧
      (∃ c, findCategory (runStore sampleRow) sampleRow.category_name = some c ∧
        p.category_id = c.id ∧ c ∈ (runStore sampleRow).categories) ∧
      (∃ w, findCarrier (runStore sampleRow) sampleRow.company_name = some w ∧
        p.carrier_id = w.id ∧ w ∈ (runStore sampleRow).carriers) :=
  c2_policy_references sampleRow emptyStore (runStore sampleRow) (runStats sampleRow)
    (by decide) (by decide)

/-- C3: a batch that ran successfully is idempotent — running the very
same rows again on the resulting store finds every entity, creates
nothing, leaves the store exactly as it was, and reports all-zero
stats; and within any run each counter equals exactly the number of
newly created records of its kind (final collection size minus initial
collection size). -/
theorem c3_idempotent_rerun (rows : List Row) (s0 s1 : Store) (st : Stats)
    (h : processRows rows s0 = (s1, Except.ok st)) :
    processRows rows s1 = (s1, Except.ok Stats.zero) ∧
    s1.agents.length = s0.agents.length + st.agents ∧
    s1.users.length = s0.users.length + st.users ∧
    s1.accounts.length = s0.accounts.length + st.accounts ∧
    s1.categories.length = s0.categories.length + st.categories ∧
    s1.carriers.length = s0.carriers.length + st.carriers ∧
    s1.policies.length = s0.policies.length + st.policies :=
  ⟨processRows_of_seen (processRows_seen h), processRows_lengths h⟩

/-- C3 (witness): the theorem applied to the one-row batch
`[sampleRow]` from the empty store. -/
theorem c3_idempotent_rerun_witness :
    processRows [sampleRow] (processRows [sampleRow] emptyStore).1 =
      ((processRows [sampleRow] emptyStore).1, Except.ok Stats.zero) ∧
    (processRows [sampleRow] emptyStore).1.agents.length = emptyStore.agents.length + 1 ∧
    (processRows [sampleRow] emptyStore).1.users.length = emptyStore.users.length + 1 ∧
    (processRows [sampleRow] emptyStore).1.accounts.length = emptyStore.accounts.length + 1 ∧
    (processRows [sampleRow] emptyStore).1.categories.length =
      emptyStore.categories.length + 1 ∧
    (processRows [sampleRow] emptyStore).1.carriers.length = emptyStore.carriers.length + 1 ∧
    (processRows [sampleRow] emptyStore).1.policies.length = emptyStore.policies.length + 1 :=
  c3_idempotent_rerun [sampleRow] emptyStore (processRows [sampleRow] emptyStore).1
    ⟨1, 1, 1, 1, 1, 1⟩ (by decide)

/-- C8: when the file stream fails, the worker performs no entity
write — the store is returned untouched — and the caller receives the
error payload, never a stats payload. -/
theorem c8_stream_error_no_stats (e : String) (s : Store) :
    workerMain (Except.error e) s = (s, WorkerMsg.errorMsg e) ∧
    ∀ st, (workerMain (Except.error e) s).2 ≠ WorkerMsg.statsMsg st :=
  ⟨rfl, fun st hst => by simp [workerMain] at hst⟩

/-- C9: the claim (and spec §7) requires a uniqueness-violation
rejection of the Policy create to be treated as "already exists" by
re-reading the committed record and continuing.  The code has no
handler around the create: when a concurrent writer commits the same
policy number between the findOne and the create, the create's
duplicate-key rejection propagates as the row's error (aborting the
batch through the catch/reject path) instead of a re-read.  Evaluated
at the concrete race where `raceStore` holds the concurrently committed
"PN1" policy. -/
theorem c9_constraint_violation_aborts :
    findPolicy emptyStore sampleRow.policy_number = none ∧
    createPolicy sampleRow 0 1 2 3 4 raceStore = Except.error dupKeyMsg ∧
    stepPolicyRace sampleRow 0 1 2 3 4 emptyStore raceStore = Except.error dupKeyMsg := by
  refine ⟨by decide, by decide, by decide⟩

/-- C10: when row processing fails with error `e` after the stream was
read, the worker posts `{ error: e }` on the same message channel used
for stats, the caller's promise resolves (it is not rejected), and the
upload handler answers HTTP 200 with the error object standing where
the stats would be. -/
theorem c10_row_error_http_200 (rows : List Row) (s s1 : Store) (e : String)
    (h : processRows rows s = (s1, Except.error e)) :
    workerMain (Except.ok rows) s = (s1, WorkerMsg.errorMsg e) ∧
    processCSVOutcome (workerMain (Except.ok rows) s).2 =
      PromiseOutcome.resolved (WorkerMsg.errorMsg e) ∧
    uploadResponse (processCSVOutcome (workerMain (Except.ok rows) s).2) =
      (200, UploadBody.success (WorkerMsg.errorMsg e)) := by
  have h1 : workerMain (Except.ok rows) s = (s1, WorkerMsg.errorMsg e) := by
    unfold workerMain
    dsimp only
    rw [h]
  refine ⟨h1, by rw [h1]; rfl, by rw [h1]; rfl⟩

/-- C10 (witness): the theorem applied to the one-row batch whose row
fails with the Date cast error. -/
theorem c10_row_error_http_200_witness :
    workerMain (Except.ok [badDobRow]) emptyStore =
      ((processRows [badDobRow] emptyStore).1, WorkerMsg.errorMsg dateCastMsg) ∧
    processCSVOutcome (workerMain (Except.ok [badDobRow]) emptyStore).2 =
      PromiseOutcome.resolved (WorkerMsg.errorMsg dateCastMsg) ∧
    uploadResponse (processCSVOutcome (workerMain (Except.ok [badDobRow]) emptyStore).2) =
      (200, UploadBody.success (WorkerMsg.errorMsg dateCastMsg)) :=
  c10_row_error_http_200 [badDobRow] emptyStore (processRows [badDobRow] emptyStore).1
    dateCastMsg (by decide)
